import Mathlib

/-!
Shallow embedding of the orchestrator worker (agent execution and evolution
engine) of the MyMCP gateway, together with proofs about the claims of its
specification.

Modelling conventions, used throughout:

* Go maps are modelled as insertion-ordered association lists
  (`alookup` / `ainsert` / `aerase` below).  Go map iteration order is
  unspecified; no property proved here depends on iteration order.
* Go `float64` fields (temperature, fitness, mutation rate, scores) are
  modelled as rationals, i.e. by the real-arithmetic semantics of the
  expressions.  Where the truth of a claim depends on IEEE-754 binary64
  rounding — the crossover temperature average — that rounding is modelled
  explicitly (`float64Round`, `crossoverTemperatureF64` below: round to
  nearest, ties to even, 53 significant bits).
* JSON payloads are modelled by the inductive `J` below; handlers produce the
  same field names, in the declaration order of the Go structs.  Where the Go
  code marshals a map (whose keys `encoding/json` sorts), the model keeps
  insertion order; claims only access such objects by key, never by position.
* `math/rand` draws and `time.Now()` readings are modelled by an explicit
  oracle (`Oracle` below): an infinite tape of rational draws (for
  `rand.Float64`), natural draws (for `rand.Intn`) and clock readings (for
  `time.Now().UnixNano`), consumed in program order.  `rand.Intn n` with
  `n = 0` panics in Go; the oracle returns `none` there, and `Option` is the
  panic monad of the embedding.
* Context deadlines and the inter-thread scheduling of `runParallel` are not
  modelled: the LLM backend is an opaque function already able to return any
  error (including a deadline error), and the fan-out writes each result into
  its own request-indexed slot and joins before returning, so the sequential
  fold used here produces the same result slice and the same per-key ledger
  entries as any interleaving.
-/

set_option linter.unusedVariables false
set_option maxRecDepth 100000

namespace MyMCP

/-- JSON values, as produced by the handlers (model of `encoding/json`
marshalling output and of `map[string]any` decoding). -/
inductive J where
  | str (s : String)
  | num (q : ℚ)
  | bool (b : Bool)
  | null
  | arr (xs : List J)
  | obj (fields : List (String × J))

/-- Lookup in an association list (model of a Go map read that reports
presence, `v, ok := m[k]`). -/
def alookup {α : Type} : List (String × α) → String → Option α
  | [], _ => none
  | (k2, v) :: rest, k => if k2 = k then some v else alookup rest k

/-- Insertion into an association list (model of a Go map write `m[k] = v`):
replaces the value at an existing key, otherwise appends. -/
def ainsert {α : Type} : List (String × α) → String → α → List (String × α)
  | [], k, v => [(k, v)]
  | (k2, v2) :: rest, k, v =>
      if k2 = k then (k, v) :: rest else (k2, v2) :: ainsert rest k v

/-- Deletion from an association list (model of Go `delete(m, k)`). -/
def aerase {α : Type} : List (String × α) → String → List (String × α)
  | [], _ => []
  | (k2, v2) :: rest, k => if k2 = k then rest else (k2, v2) :: aerase rest k

@[simp] theorem alookup_ainsert_self {α : Type} (m : List (String × α)) (k : String) (v : α) :
    alookup (ainsert m k v) k = some v := by
  induction m with
  | nil => simp [ainsert, alookup]
  | cons p rest ih =>
      obtain ⟨k2, v2⟩ := p
      by_cases h : k2 = k
      · simp [ainsert, alookup, h]
      · simp [ainsert, alookup, h, ih]

@[simp] theorem alookup_ainsert_ne {α : Type} (m : List (String × α)) (k k2 : String) (v : α)
    (h : k ≠ k2) : alookup (ainsert m k v) k2 = alookup m k2 := by
  induction m with
  | nil => simp [ainsert, alookup, h]
  | cons p rest ih =>
      obtain ⟨k3, v3⟩ := p
      by_cases h3 : k3 = k
      · subst h3
        simp [ainsert, alookup, h]
      · simp [ainsert, alookup, h3, ih]

/-- Reading a string field out of a decoded JSON object, dropping the
type-assertion flag: model of Go `s, _ := m["k"].(string)`, which yields the
empty string when the key is absent or not a string. -/
def J.getStr (j : J) (k : String) : String :=
  match j with
  | .obj fields =>
      match alookup fields k with
      | some (.str s) => s
      | _ => ""
  | _ => ""

/-- Oracle for the sources of nondeterminism of the Go code: `floats n` models
the value of the `n`-th `rand.Float64()` draw (a value in `[0,1)`), `ints n`
the raw value behind the `n`-th `rand.Intn` draw (reduced mod the bound), and
`times n` the `n`-th `time.Now().UnixNano()` reading; `pos` is the position on
this shared tape, advanced by every draw in program order. -/
structure Oracle where
  floats : Nat → ℚ
  ints : Nat → Nat
  times : Nat → Nat
  pos : Nat

/-- Advance the oracle tape by one draw. -/
def Oracle.next (o : Oracle) : Oracle := { o with pos := o.pos + 1 }

/-- Model of `rand.Float64()`. -/
def Oracle.nextFloat (o : Oracle) : ℚ × Oracle := (o.floats o.pos, o.next)

/-- Model of `time.Now()` (as a nanosecond tick). -/
def Oracle.nextTime (o : Oracle) : Nat × Oracle := (o.times o.pos, o.next)

/-- Model of `rand.Intn n`: panics (`none`) when `n = 0`, exactly as
`math/rand` does, otherwise yields an index below `n`. -/
def Oracle.intn (n : Nat) (o : Oracle) : Option (Fin n × Oracle) :=
  if h : n = 0 then none
  else some (⟨o.ints o.pos % n, Nat.mod_lt _ (Nat.pos_of_ne_zero h)⟩, o.next)

@[simp] theorem intn_zero (o : Oracle) : Oracle.intn 0 o = none := rfl

/-- The LLM abstraction: given model, system prompt, user prompt, temperature
and max-token budget, return generated text or an error.  An arbitrary
function of this type also covers deadline expiry (which surfaces as an
error from the provider). -/
def LLMProvider : Type := String → String → String → ℚ → Int → Except String String

/-- Agent configuration (source struct `AgentGenome`). -/
structure AgentGenome where
  ID : String
  Name : String
  Model : String
  Provider : String
  SystemPrompt : String
  Tools : List String
  Temperature : ℚ
  MaxTokens : Int
  Metadata : List (String × J)
  CreatedAt : Nat
  Fitness : ℚ
  Generation : Nat
  ParentIDs : List String

/-- A single execution record (source struct `AgentRun`). -/
structure AgentRun where
  RunID : String
  GenomeID : String
  Input : String
  Output : String
  Status : String
  Fitness : ℚ
  StartedAt : Nat
  CompletedAt : Option Nat
  Error : String
  Metadata : List (String × J)

/-- The Go zero value of `AgentRun`, as produced by a map read at a missing
key. -/
def AgentRun.zero : AgentRun :=
  { RunID := "", GenomeID := "", Input := "", Output := "", Status := "",
    Fitness := 0, StartedAt := 0, CompletedAt := none, Error := "", Metadata := [] }

/-- One step of a workflow (source struct `WorkflowStep`).  `Inputs` maps a
placeholder name to the step ID whose output replaces it. -/
structure WorkflowStep where
  StepID : String
  AgentID : String
  Parallel : Bool
  Inputs : List (String × String)

/-- A multi-step execution plan (source struct `Workflow`). -/
structure Workflow where
  ID : String
  Name : String
  Steps : List WorkflowStep
  CreatedAt : Nat

/-- The shared orchestrator state (source struct `OrchestratorWorkerState`).
The `Tools` catalogue and the mutex are omitted: the former is a constant
list of tool descriptors and the latter only serializes access. -/
structure OrchestratorWorkerState where
  Agents : List (String × AgentGenome)
  Runs : List (String × AgentRun)
  Workflows : List (String × Workflow)
  LLMProvider : Option LLMProvider
  MaxParallel : Nat
  DefaultTimeout : Nat

/-- Model of `strings.ReplaceAll(name, " ", "_")`: the pattern and the
replacement are single characters, so the replacement is per-character. -/
def underscoreSpaces (name : String) : String :=
  (name.toList.map (fun c => if c = ' ' then '_' else c)).asString

/-- Source helper `generateAgentID`, with the `time.Now().UnixNano()` reading
passed in from the oracle. -/
def generateAgentID (name : String) (t : Nat) : String :=
  "agent_" ++ underscoreSpaces name ++ "_" ++ toString (t % 10000)

/-- Source helper `generateRunID`. -/
def generateRunID (t : Nat) : String :=
  "run_" ++ toString (t % 100000)

/-- Source helper `generateWorkflowID`. -/
def generateWorkflowID (name : String) (t : Nat) : String :=
  "wf_" ++ underscoreSpaces name ++ "_" ++ toString (t % 10000)

/-- JSON marshalling of a genome, fields in Go declaration order. -/
def AgentGenome.toJ (g : AgentGenome) : J :=
  J.obj [("id", .str g.ID), ("name", .str g.Name), ("model", .str g.Model),
    ("provider", .str g.Provider), ("system_prompt", .str g.SystemPrompt),
    ("tools", .arr (g.Tools.map .str)), ("temperature", .num g.Temperature),
    ("max_tokens", .num g.MaxTokens), ("metadata", .obj g.Metadata),
    ("created_at", .num g.CreatedAt), ("fitness", .num g.Fitness),
    ("generation", .num g.Generation), ("parent_ids", .arr (g.ParentIDs.map .str))]

/-- JSON marshalling of a run record; `completed_at` and `error` carry
`omitempty`. -/
def AgentRun.toJ (r : AgentRun) : J :=
  J.obj ([("run_id", .str r.RunID), ("genome_id", .str r.GenomeID),
    ("input", .str r.Input), ("output", .str r.Output), ("status", .str r.Status),
    ("fitness", .num r.Fitness), ("started_at", .num r.StartedAt)] ++
    (match r.CompletedAt with
     | some t => [("completed_at", J.num t)]
     | none => []) ++
    (if r.Error = "" then [] else [("error", J.str r.Error)]) ++
    [("metadata", .obj r.Metadata)])

/-- JSON marshalling of a workflow step. -/
def WorkflowStep.toJ (s : WorkflowStep) : J :=
  J.obj [("step_id", .str s.StepID), ("agent_id", .str s.AgentID),
    ("parallel", .bool s.Parallel),
    ("inputs", .obj (s.Inputs.map fun p => (p.1, J.str p.2)))]

/-- JSON marshalling of a workflow. -/
def Workflow.toJ (w : Workflow) : J :=
  J.obj [("id", .str w.ID), ("name", .str w.Name),
    ("steps", .arr (w.Steps.map WorkflowStep.toJ)), ("created_at", .num w.CreatedAt)]

theorem intn_succ (n : Nat) (o : Oracle) :
    Oracle.intn (n + 1) o = some (⟨o.ints o.pos % (n + 1), Nat.mod_lt _ (Nat.succ_pos n)⟩, o.next) := by
  simp [Oracle.intn]

/-- Request payload of `registerAgent` (the handler's anonymous struct;
absent JSON fields decode to Go zero values). -/
structure RegisterAgentReq where
  Name : String := ""
  Model : String := ""
  Provider : String := ""
  SystemPrompt : String := ""
  Tools : List String := []
  Temperature : ℚ := 0
  MaxTokens : Int := 0
  Metadata : List (String × J) := []

/-- Request payload of `listAgents`. -/
structure ListAgentsReq where
  Limit : Int := 0

/-- Request payload of `getAgent`, `deleteAgent`. -/
structure AgentIDReq where
  AgentID : String := ""

/-- Request payload of `runAgent`.  The timeout only parameterizes the
context deadline, which is not modelled (see the header comment). -/
structure RunAgentReq where
  AgentID : String := ""
  Input : String := ""
  Timeout : Nat := 0

/-- Request payload of `runParallel`. -/
structure RunParallelReq where
  AgentIDs : List String := []
  Input : String := ""
  Timeout : Nat := 0

/-- Request payload of `runWorkflow`. -/
structure RunWorkflowReq where
  WorkflowID : String := ""
  InitialInput : String := ""
  Timeout : Nat := 0

/-- Request payload of `evaluate`. -/
structure EvaluateReq where
  RunID : String := ""
  Fitness : ℚ := 0
  Feedback : String := ""
  Correctness : Bool := false

/-- Request payload of `evolve`. -/
structure EvolveReq where
  Task : String := ""
  ParentIDs : List String := []
  PopulationSize : Nat := 0
  Generations : Nat := 0
  MutationRate : ℚ := 0

/-- Request payload of `getResult`. -/
structure RunIDReq where
  RunID : String := ""

/-- Request payload of `createWorkflow`. -/
structure CreateWorkflowReq where
  Name : String := ""
  Steps : List WorkflowStep := []

/-- Outcome type of the handlers: the marshalled response or the hard error
(Go return `([]byte, error)` with exactly one side nil), new state, advanced
oracle. -/
def HResult : Type := (Except String J) × OrchestratorWorkerState × Oracle

/-- Source handler `registerAgent`. -/
def registerAgent (w : OrchestratorWorkerState) (req : RegisterAgentReq) (o : Oracle) : HResult :=
  if req.Name = "" ∨ req.Model = "" then (.error "name and model required", w, o)
  else
    let (t1, o) := o.nextTime
    let agentID := generateAgentID req.Name t1
    let (t2, o) := o.nextTime
    let agent : AgentGenome :=
      { ID := agentID, Name := req.Name, Model := req.Model, Provider := req.Provider,
        SystemPrompt := req.SystemPrompt, Tools := req.Tools,
        Temperature := req.Temperature, MaxTokens := req.MaxTokens,
        Metadata := req.Metadata, CreatedAt := t2, Fitness := 1/2,
        Generation := 0, ParentIDs := [] }
    (.ok (J.obj [("agent_id", .str agentID), ("agent", agent.toJ)]),
     { w with Agents := ainsert w.Agents agentID agent }, o)

/-- Source handler `listAgents` (a snapshot capped at the limit; the map
iteration order is modelled by the insertion order of the ledger). -/
def listAgents (w : OrchestratorWorkerState) (req : ListAgentsReq) (o : Oracle) : HResult :=
  let limit : Int := if req.Limit = 0 then 50 else req.Limit
  (.ok (.arr (((w.Agents.map (·.2)).take limit.toNat).map AgentGenome.toJ)), w, o)

/-- Source handler `getAgent`. -/
def getAgent (w : OrchestratorWorkerState) (req : AgentIDReq) (o : Oracle) : HResult :=
  match alookup w.Agents req.AgentID with
  | none => (.error ("agent not found: " ++ req.AgentID), w, o)
  | some agent => (.ok agent.toJ, w, o)

/-- Source handler `deleteAgent`. -/
def deleteAgent (w : OrchestratorWorkerState) (req : AgentIDReq) (o : Oracle) : HResult :=
  match alookup w.Agents req.AgentID with
  | none => (.error ("agent not found: " ++ req.AgentID), w, o)
  | some _ =>
      (.ok (J.obj [("deleted", .bool true), ("agent_id", .str req.AgentID)]),
       { w with Agents := aerase w.Agents req.AgentID }, o)

/-- Source handler `getResult`. -/
def getResult (w : OrchestratorWorkerState) (req : RunIDReq) (o : Oracle) : HResult :=
  match alookup w.Runs req.RunID with
  | none => (.error ("run not found: " ++ req.RunID), w, o)
  | some run => (.ok run.toJ, w, o)

/-- Source handler `createWorkflow`. -/
def createWorkflow (w : OrchestratorWorkerState) (req : CreateWorkflowReq) (o : Oracle) : HResult :=
  if req.Name = "" ∨ req.Steps.length = 0 then (.error "name and steps required", w, o)
  else
    let (t1, o) := o.nextTime
    let workflowID := generateWorkflowID req.Name t1
    let (t2, o) := o.nextTime
    let wf : Workflow := { ID := workflowID, Name := req.Name, Steps := req.Steps, CreatedAt := t2 }
    (.ok (J.obj [("workflow_id", .str workflowID), ("workflow", wf.toJ)]),
     { w with Workflows := ainsert w.Workflows workflowID wf }, o)

/-- Source handler `listWorkflows`. -/
def listWorkflows (w : OrchestratorWorkerState) (o : Oracle) : HResult :=
  (.ok (.arr ((w.Workflows.map (·.2)).map Workflow.toJ)), w, o)

/-- Source handler `runAgent`: creates a running ledger entry, performs the
LLM call (or, with no provider configured, substitutes the deterministic
simulated output), then writes the terminal status.  An LLM error is
reported inside an `.ok` payload with status `failed` — it is not a hard
error (the Go code returns a marshalled failure object together with a nil
`error`). -/
def runAgent (w : OrchestratorWorkerState) (req : RunAgentReq) (o : Oracle) : HResult :=
  if req.AgentID = "" ∨ req.Input = "" then (.error "agent_id and input required", w, o)
  else
    match alookup w.Agents req.AgentID with
    | none => (.error ("agent not found: " ++ req.AgentID), w, o)
    | some agent =>
      let (t1, o) := o.nextTime
      let runID := generateRunID t1
      let (t2, o) := o.nextTime
      let run : AgentRun :=
        { RunID := runID, GenomeID := req.AgentID, Input := req.Input, Output := "",
          Status := "running", Fitness := 0, StartedAt := t2, CompletedAt := none,
          Error := "", Metadata := [] }
      let w1 := { w with Runs := ainsert w.Runs runID run }
      let execResult : Except String String :=
        match w1.LLMProvider with
        | some call =>
            let temp := if agent.Temperature = 0 then 7/10 else agent.Temperature
            let maxTokens := if agent.MaxTokens = 0 then 2048 else agent.MaxTokens
            call agent.Model agent.SystemPrompt req.Input temp maxTokens
        | none => .ok ("[Simulated] Agent \x27" ++ agent.Name ++ "\x27 would process: " ++ req.Input)
      let (t3, o) := o.nextTime
      let existingRun := (alookup w1.Runs runID).getD AgentRun.zero
      let existingRun :=
        match execResult with
        | .error e => { existingRun with Status := "failed", Error := e, CompletedAt := some t3 }
        | .ok output => { existingRun with Status := "completed", Output := output, CompletedAt := some t3 }
      let w2 := { w1 with Runs := ainsert w1.Runs runID existingRun }
      match execResult with
      | .error e =>
          (.ok (J.obj [("run_id", .str runID), ("status", .str "failed"), ("error", .str e)]), w2, o)
      | .ok output =>
          (.ok (J.obj [("run_id", .str runID), ("status", .str "completed"), ("output", .str output)]), w2, o)

/-- One slot of a `runParallel` result (the goroutine-local `result` struct). -/
structure PResult where
  AgentID : String
  RunID : String
  Output : String
  Status : String
  Error : String

/-- JSON marshalling of one parallel slot; `output` and `error` carry
`omitempty`. -/
def PResult.toJ (r : PResult) : J :=
  J.obj ([("agent_id", .str r.AgentID), ("run_id", .str r.RunID)] ++
    (if r.Output = "" then [] else [("output", J.str r.Output)]) ++
    [("status", .str r.Status)] ++
    (if r.Error = "" then [] else [("error", J.str r.Error)]))

/-- The per-agent fan-out of `runParallel`.  Each Go goroutine fills the slot
at its own request index and the caller joins before reading, so folding the
slots in request order yields the same result slice; a hard error from
`runAgent` marks only its own slot `failed`, a payload (complete or failed)
is copied into the slot fields by keyed reads. -/
def runSlots (w : OrchestratorWorkerState) (ids : List String) (inp : String)
    (timeout : Nat) (o : Oracle) : List PResult × OrchestratorWorkerState × Oracle :=
  match ids with
  | [] => ([], w, o)
  | id :: rest =>
      let r := runAgent w { AgentID := id, Input := inp, Timeout := timeout } o
      let res : PResult :=
        match r.1 with
        | .error e =>
            { AgentID := id, RunID := "", Output := "", Status := "failed", Error := e }
        | .ok j =>
            { AgentID := id, RunID := j.getStr "run_id", Output := j.getStr "output",
              Status := j.getStr "status", Error := "" }
      let p := runSlots r.2.1 rest inp timeout r.2.2
      (res :: p.1, p.2.1, p.2.2)

/-- Source handler `runParallel`: validates, rejects synchronously above the
parallelism cap, then fans out one `runAgent` per ID. -/
def runParallel (w : OrchestratorWorkerState) (req : RunParallelReq) (o : Oracle) : HResult :=
  if req.AgentIDs.length = 0 ∨ req.Input = "" then (.error "agent_ids and input required", w, o)
  else if req.AgentIDs.length > w.MaxParallel then
    (.error ("too many agents (max " ++ toString w.MaxParallel ++ ")"), w, o)
  else
    let timeout := if req.Timeout = 0 then w.DefaultTimeout else req.Timeout
    let p := runSlots w req.AgentIDs req.Input timeout o
    (.ok (J.obj [("results", .arr (p.1.map PResult.toJ)),
      ("count", .num p.1.length)]), p.2.1, p.2.2)

/-- JSON marshalling of the per-step output map of a workflow run (Go sorts
the keys of a marshalled map; the model keeps insertion order and all claims
access this object only by key). -/
def workflowResultsJ (acc : List (String × String)) : J :=
  J.obj (acc.map fun p => (p.1, J.str p.2))

/-- The input a workflow step hands to `runAgent`: the step's own prior
recorded output if present, else the last produced output, with declared
placeholders substituted by literal string replacement. -/
def stepInput (step : WorkflowStep) (acc : List (String × String)) (last : String) : String :=
  let input0 := (alookup acc step.StepID).getD ""
  let input1 := if input0 = "" then last else input0
  step.Inputs.foldl (fun inp kv =>
    match alookup acc kv.2 with
    | some val => inp.replace ("$\x7b" ++ kv.1 ++ "\x7d") val
    | none => inp) input1

/-- The step loop of `runWorkflow`: each step feeds `stepInput` to
`runAgent`.  Only a hard error (nonzero Go `error`) from `runAgent` aborts
the loop; a status-`failed` payload flows through the keyed reads as an
empty output and execution continues. -/
def runSteps (w : OrchestratorWorkerState) (wfName : String) (steps : List WorkflowStep)
    (acc : List (String × String)) (last : String) (o : Oracle) :
    J × OrchestratorWorkerState × Oracle :=
  match steps with
  | [] =>
      (J.obj [("status", .str "completed"), ("workflow", .str wfName),
        ("output", .str last), ("results", workflowResultsJ acc)], w, o)
  | step :: rest =>
      match runAgent w { AgentID := step.AgentID, Input := stepInput step acc last, Timeout := 0 } o with
      | (.error e, w2, o2) =>
          (J.obj [("status", .str "failed"), ("step", .str step.StepID),
            ("error", .str e), ("results", workflowResultsJ acc)], w2, o2)
      | (.ok j, w2, o2) =>
          let output := j.getStr "output"
          runSteps w2 wfName rest (ainsert acc step.StepID output) output o2

/-- The threaded context of the workflow step loop: the state, the
per-step output map, the last produced output and the oracle position
reached after some prefix of the steps. -/
structure StepCtx where
  state : OrchestratorWorkerState
  acc : List (String × String)
  last : String
  orc : Oracle

/-- Runs a prefix of the workflow steps exactly as `runSteps` does,
returning the threaded context when every step of the prefix returns from
`runAgent` without a hard error, and `none` when some step of the prefix
hard-errors. -/
def runStepsOk (w : OrchestratorWorkerState) (steps : List WorkflowStep)
    (acc : List (String × String)) (last : String) (o : Oracle) : Option StepCtx :=
  match steps with
  | [] => some ⟨w, acc, last, o⟩
  | step :: rest =>
      match runAgent w { AgentID := step.AgentID, Input := stepInput step acc last, Timeout := 0 } o with
      | (.error _, _, _) => none
      | (.ok j, w2, o2) =>
          runStepsOk w2 rest (ainsert acc step.StepID (j.getStr "output")) (j.getStr "output") o2

/-- Source handler `runWorkflow`.  Both the completed and the step-failed
outcome are marshalled payloads with a nil Go error, hence `.ok`; hard
errors are only the validation and not-found cases. -/
def runWorkflow (w : OrchestratorWorkerState) (req : RunWorkflowReq) (o : Oracle) : HResult :=
  if req.WorkflowID = "" ∨ req.InitialInput = "" then
    (.error "workflow_id and initial_input required", w, o)
  else
    match alookup w.Workflows req.WorkflowID with
    | none => (.error ("workflow not found: " ++ req.WorkflowID), w, o)
    | some wf =>
        let p := runSteps w wf.Name wf.Steps [("_initial", req.InitialInput)] req.InitialInput o
        (.ok p.1, p.2.1, p.2.2)

/-- Source handler `evaluate`: fitness is the explicit value when nonzero,
else 1 when correctness holds, else 1/2; it is written onto the run and,
when the source genome is still registered, onto that genome. -/
def evaluate (w : OrchestratorWorkerState) (req : EvaluateReq) (o : Oracle) : HResult :=
  match alookup w.Runs req.RunID with
  | none => (.error ("run not found: " ++ req.RunID), w, o)
  | some run =>
      let fitness : ℚ :=
        if req.Fitness = 0 ∧ req.Correctness then 1
        else if req.Fitness = 0 then 1/2
        else req.Fitness
      let run2 := { run with Fitness := fitness }
      let w1 := { w with Runs := ainsert w.Runs req.RunID run2 }
      let w2 :=
        match alookup w1.Agents run.GenomeID with
        | some agent =>
            { w1 with Agents := ainsert w1.Agents run.GenomeID { agent with Fitness := fitness } }
        | none => w1
      (.ok (J.obj [("run_id", .str req.RunID), ("fitness", .num fitness),
        ("updated", .bool true)]), w2, o)

/-- Source method `mutate`: each of the three perturbations fires
independently with probability `rate`.  String indexing is modelled on
characters (the Go code slices bytes; they agree on ASCII prompts, and no
claim depends on the sliced text).  The returned value is the value of the
Go return; the in-place effect of the tool-removal `append` on the shared
backing array is modelled separately (`goBackingAfterToolRemove`). -/
def mutate (agent : AgentGenome) (rate : ℚ) (o : Oracle) : Option (AgentGenome × Oracle) := do
  let mutated := { agent with ID := "" }
  let (r1, o) := o.nextFloat
  let (mutated, o) ←
    if r1 < rate then
      let (d, o) := o.nextFloat
      pure ({ mutated with
        Temperature := max 0 (min 2 (agent.Temperature + (d - 1/2) * (1/5))) }, o)
    else pure (mutated, o)
  let (r2, o) := o.nextFloat
  let (mutated, o) ←
    if r2 < rate then
      if agent.SystemPrompt.length > 50 then do
        let (start, o) ← Oracle.intn (agent.SystemPrompt.length - 50) o
        pure ({ mutated with
          SystemPrompt := ((agent.SystemPrompt.toList.drop start.val).take 50).asString }, o)
      else pure (mutated, o)
    else pure (mutated, o)
  let (r3, o) := o.nextFloat
  if r3 < rate then
    if agent.Tools.length > 0 then
      let (c, o) := o.nextFloat
      if c < 1/2 then do
        let (idx, o) ← Oracle.intn agent.Tools.length o
        pure ({ mutated with Tools := agent.Tools.take idx.val ++ agent.Tools.drop (idx.val + 1) }, o)
      else do
        let (k, o) ← Oracle.intn 100 o
        pure ({ mutated with Tools := mutated.Tools ++ ["tool_" ++ toString k.val] }, o)
    else do
      let (k, o) ← Oracle.intn 100 o
      pure ({ mutated with Tools := mutated.Tools ++ ["tool_" ++ toString k.val] }, o)
  else pure (mutated, o)

/-- Coin filter over the second parent tool list of `crossover`: one
`rand.Float64` draw per element, keeping those below 1/2. -/
def keepHalf : List String → Oracle → List String × Oracle
  | [], o => ([], o)
  | t :: ts, o =>
      let (r, o) := o.nextFloat
      let (rest, o2) := keepHalf ts o
      (if r < 1/2 then t :: rest else rest, o2)

/-- Set-insertion preserving first-insertion order (model of writing a key
into the `toolSet` map of `crossover`). -/
def toolSetInsert (acc : List String) (t : String) : List String :=
  if t ∈ acc then acc else acc ++ [t]

/-- Source method `crossover`: child starts as a copy of parent 1; with
probability 1/2 (and both prompts non-empty) the prompt halves are spliced;
the tool sets are unioned (parent 2 elements kept with an independent coin
each); temperatures are averaged (here in exact rationals; the binary64
rounding of the same average is modelled by `crossoverTemperatureF64`
below); fitness resets to 1/2 and the ID clears. -/
def crossover (parent1 parent2 : AgentGenome) (o : Oracle) : AgentGenome × Oracle :=
  let child := parent1
  let (r1, o) := o.nextFloat
  let child :=
    if r1 < 1/2 ∧ parent1.SystemPrompt.length > 0 ∧ parent2.SystemPrompt.length > 0 then
      { child with SystemPrompt :=
          ((parent1.SystemPrompt.toList.take (parent1.SystemPrompt.length / 2)).asString ++
           (parent2.SystemPrompt.toList.drop (parent2.SystemPrompt.length / 2)).asString) }
    else child
  let kp := keepHalf parent2.Tools o
  let child := { child with Tools := (parent1.Tools ++ kp.1).foldl toolSetInsert [] }
  let child := { child with Temperature := (parent1.Temperature + parent2.Temperature) / 2 }
  let child := { child with ID := "", Fitness := 1/2 }
  (child, kp.2)

/-- Fuel-driven floor logarithm base 2 on naturals (halving loop); the fuel
argument only bounds the recursion and any fuel at least the input is enough. -/
def log2Aux : Nat → Nat → Nat
  | 0, _ => 0
  | fuel + 1, n => if n ≤ 1 then 0 else 1 + log2Aux fuel (n / 2)

/-- Floor logarithm base 2 (`log2N n = ⌊log2 n⌋` for `n ≥ 1`). -/
def log2N (n : Nat) : Nat := log2Aux n n

/-- Integer powers of two as rationals. -/
def pow2 (e : Int) : ℚ := if 0 ≤ e then ((2 ^ e.toNat : Nat) : ℚ) else 1 / ((2 ^ (-e).toNat : Nat) : ℚ)

/-- Floor logarithm base 2 of a positive rational: the candidate exponent
from the numerator and denominator logarithms, corrected by direct
comparison with the adjacent powers of two. -/
def log2floorQ (q : ℚ) : Int :=
  let a : Int := (log2N q.num.natAbs : Int) - (log2N q.den : Int)
  if pow2 (a + 1) ≤ q then a + 1 else if pow2 a ≤ q then a else a - 1

/-- Round a positive rational to the nearest IEEE-754 binary64 value
(round-to-nearest, ties-to-even, 53 significant bits), assuming the value
lies in the normal finite range — which every temperature the claims
mention does.  The value is scaled so that its integer part carries exactly
53 bits; the fractional remainder decides the direction, a tie going to the
even candidate. -/
def float64RoundPos (q : ℚ) : ℚ :=
  let e : Int := log2floorQ q - 52
  let scaled : ℚ := q / pow2 e
  let fl : Int := scaled.num / scaled.den
  let frac : ℚ := scaled - (fl : ℚ)
  if frac < 1/2 then (fl : ℚ) * pow2 e
  else if 1/2 < frac then ((fl + 1 : Int) : ℚ) * pow2 e
  else if fl % 2 = 0 then (fl : ℚ) * pow2 e else ((fl + 1 : Int) : ℚ) * pow2 e

/-- Round a rational to the nearest binary64 value (sign dealt with by
symmetry, as IEEE-754 rounding is odd). -/
def float64Round (q : ℚ) : ℚ :=
  if q < 0 then - float64RoundPos (-q) else if q = 0 then 0 else float64RoundPos q

/-- The binary64 value Go computes for `(t1 + t2) / 2` when `t1` and `t2`
are already binary64 values: the sum is rounded once, and the halving —
exact in binary fraction terms at these magnitudes — is rounded again
(a no-op when the half is representable). -/
def crossoverTemperatureF64 (t1 t2 : ℚ) : ℚ :=
  float64Round (float64Round (t1 + t2) / 2)

/-- A population member paired with its score (source local `scoredAgent`). -/
structure ScoredAgent where
  genome : AgentGenome
  score : ℚ

/-- One pass of the inner loop of the exchange sort of `evolve`: carries the
current front element, swapping whenever a strictly greater score is met;
returns the maximum together with the displaced elements in the order the
swaps leave them. -/
def innerPass (x : ScoredAgent) : List ScoredAgent → ScoredAgent × List ScoredAgent
  | [] => (x, [])
  | y :: ys =>
      if x.score < y.score then
        let p := innerPass y ys
        (p.1, x :: p.2)
      else
        let p := innerPass x ys
        (p.1, y :: p.2)

theorem innerPass_length (x : ScoredAgent) (l : List ScoredAgent) :
    (innerPass x l).2.length = l.length := by
  induction l generalizing x with
  | nil => rfl
  | cons y ys ih =>
      by_cases h : x.score < y.score <;> simp [innerPass, h, ih]

/-- Fuel-indexed form of the exchange sort: each outer iteration moves the
maximum of the remaining suffix to its front.  The fuel only mirrors the
outer loop counter (`innerPass` preserves length), keeping the recursion
structural. -/
def selSortAux : Nat → List ScoredAgent → List ScoredAgent
  | _, [] => []
  | 0, l => l
  | Nat.succ f, x :: xs => (innerPass x xs).1 :: selSortAux f (innerPass x xs).2

/-- The descending exchange sort of the generation loop (source lines sorting
`population` by score; ties may reorder, exactly as in the source). -/
def selSort (l : List ScoredAgent) : List ScoredAgent :=
  selSortAux l.length l

/-- Construction of the initial population of `evolve`: member `i` is a
mutation of parent `i` while parents remain, then of a randomly chosen
parent; each member gets a fresh ID, generation 1, and the parent-ID list
of the request. -/
def buildInit (parents : List AgentGenome) (rate : ℚ) (pids : List String) :
    Nat → Nat → Oracle → Option (List ScoredAgent × Oracle)
  | _, 0, o => some ([], o)
  | i, Nat.succ r, o => do
      let (g0, o) ←
        if h : i < parents.length then mutate (parents.get ⟨i, h⟩) rate o
        else do
          let (k, o) ← Oracle.intn parents.length o
          mutate (parents.get k) rate o
      let (t, o) := o.nextTime
      let g := { g0 with ID := generateAgentID g0.Name t, Generation := 1, ParentIDs := pids }
      let (rest, o) ← buildInit parents rate pids (i + 1) r o
      pure (⟨g, g.Fitness⟩ :: rest, o)

/-- The simulated evaluation of one generation: each member receives the
placeholder fitness `0.3 + rand.Float64()*0.7`, written to both the score
and the genome. -/
def evalPop : List ScoredAgent → Oracle → List ScoredAgent × Oracle
  | [], o => ([], o)
  | sa :: rest, o =>
      let (f, o) := o.nextFloat
      let s := 3/10 + f * (7/10)
      let p := evalPop rest o
      (⟨{ sa.genome with Fitness := s }, s⟩ :: p.1, p.2)

/-- The refill loop of one generation: picks two elite members at random,
crosses them with probability 3/10, else mutates the first; the child gets a
fresh ID, generation `genNumber + 1` and the two sources as parent IDs.
`rand.Intn eliteCount` panics (`none`) when the elite subset is empty. -/
def refill (sorted : List ScoredAgent) (eliteCount : Nat) (h : eliteCount ≤ sorted.length)
    (rate : ℚ) (genNumber : Nat) : Nat → Oracle → Option (List ScoredAgent × Oracle)
  | 0, o => some ([], o)
  | Nat.succ r, o => do
      let (k1, o) ← Oracle.intn eliteCount o
      let (k2, o) ← Oracle.intn eliteCount o
      let parent1 := (sorted.get ⟨k1.val, lt_of_lt_of_le k1.isLt h⟩).genome
      let parent2 := (sorted.get ⟨k2.val, lt_of_lt_of_le k2.isLt h⟩).genome
      let (c, o) := o.nextFloat
      let (child0, o) ←
        if c < 3/10 then pure (crossover parent1 parent2 o)
        else mutate parent1 rate o
      let (t, o) := o.nextTime
      let child := { child0 with
        ID := generateAgentID child0.Name t,
        Generation := genNumber + 1, ParentIDs := [parent1.ID, parent2.ID] }
      let (rest, o) ← refill sorted eliteCount h rate genNumber r o
      pure (⟨child, child.Fitness⟩ :: rest, o)

/-- One round of the generation loop: simulated evaluation, descending sort,
retention of `min 2 (len/2)` elites, refill up to the population size. -/
def generationStep (rate : ℚ) (popSize : Nat) (genNumber : Nat) (pop : List ScoredAgent)
    (o : Oracle) : Option (List ScoredAgent × Oracle) := do
  let (evaluated, o) := evalPop pop o
  let sorted := selSort evaluated
  let eliteCount := min 2 (sorted.length / 2)
  let (children, o) ← refill sorted eliteCount
    (le_trans (Nat.min_le_right _ _) (Nat.div_le_self _ _)) rate genNumber
    (popSize - eliteCount) o
  pure (sorted.take eliteCount ++ children, o)

/-- The generation loop of `evolve`, run `gens` times with the round index
threaded (children of round `g` get generation `g + 1`). -/
def runGenerations (rate : ℚ) (popSize : Nat) :
    Nat → Nat → List ScoredAgent → Oracle → Option (List ScoredAgent × Oracle)
  | _, 0, pop, o => some (pop, o)
  | genNumber, Nat.succ g, pop, o => do
      let (pop2, o) ← generationStep rate popSize genNumber pop o
      runGenerations rate popSize (genNumber + 1) g pop2 o

/-- Population construction and generation loop of `evolve`; its result is
the final population, which the last round leaves as the sorted elites of
the last evaluation followed by the unevaluated refill children. -/
def evolvePopAux (parents : List AgentGenome) (popSize gens : Nat) (rate : ℚ)
    (pids : List String) (o : Oracle) : Option (List ScoredAgent × Oracle) := do
  let (pop0, o) ← buildInit parents rate pids 0 popSize o
  runGenerations rate popSize 0 gens pop0 o

/-- Source handler `evolve`.  After the loop the first `min 3 len` members of
the final population are persisted into the registry and returned;
`population[0].score` is reported as the best fitness.  `none` models a Go
panic (`rand.Intn 0` in the refill, or indexing an empty population). -/
def evolve (w : OrchestratorWorkerState) (req : EvolveReq) (o : Oracle) : Option HResult :=
  let popSize := if req.PopulationSize = 0 then 10 else req.PopulationSize
  let gens := if req.Generations = 0 then 5 else req.Generations
  let rate := if req.MutationRate = 0 then 1/10 else req.MutationRate
  let parents := req.ParentIDs.filterMap (alookup w.Agents)
  if parents.length = 0 then some (.error "no valid parent agents found", w, o)
  else do
    let (finalPop, o) ← evolvePopAux parents popSize gens rate req.ParentIDs o
    let bestAgents := (finalPop.take (min 3 finalPop.length)).map (·.genome)
    let agents2 := bestAgents.foldl (fun m g => ainsert m g.ID g) w.Agents
    let best0 ← finalPop.head?
    pure (.ok (J.obj [("evolved", .bool true), ("generations", .num gens),
      ("best_agents", .arr (bestAgents.map AgentGenome.toJ)),
      ("best_fitness", .num best0.score)]),
      { w with Agents := agents2 }, o)

/-- A decoded JSON request payload as seen through the per-handler Go structs:
one record holding every field any handler reads, each defaulting to its Go
zero value (absent JSON fields decode to zero values).  `Execute` receives
`Option RawInput`, with `none` standing for a payload `json.Unmarshal`
rejects. -/
structure RawInput where
  Name : String := ""
  Model : String := ""
  Provider : String := ""
  SystemPrompt : String := ""
  Tools : List String := []
  Temperature : ℚ := 0
  MaxTokens : Int := 0
  Metadata : List (String × J) := []
  Limit : Int := 0
  AgentID : String := ""
  Input : String := ""
  Timeout : Nat := 0
  AgentIDs : List String := []
  WorkflowID : String := ""
  InitialInput : String := ""
  RunID : String := ""
  Fitness : ℚ := 0
  Feedback : String := ""
  Correctness : Bool := false
  Task : String := ""
  ParentIDs : List String := []
  PopulationSize : Nat := 0
  Generations : Nat := 0
  MutationRate : ℚ := 0
  Steps : List WorkflowStep := []

/-- The two-sided Go return `([]byte, error)` of `Execute`: a marshalled
payload with nil error, a nil payload with an error, or — the default branch
of the dispatch switch — nil payload together with nil error. -/
inductive ExecResult where
  | payload (j : J)
  | failure (e : String)
  | nilNil

/-- Adapter from a handler outcome to the dispatch return. -/
def toExec (r : HResult) : ExecResult × OrchestratorWorkerState × Oracle :=
  match r with
  | (.ok j, w, o) => (.payload j, w, o)
  | (.error e, w, o) => (.failure e, w, o)

/-- Unmarshal step shared by the handlers that reject a malformed payload. -/
def withParsed (w : OrchestratorWorkerState) (o : Oracle) (input : Option RawInput)
    (k : RawInput → HResult) : ExecResult × OrchestratorWorkerState × Oracle :=
  match input with
  | none => (.failure "failed to parse request", w, o)
  | some raw => toExec (k raw)

/-- The tool names recognized by the dispatch switch of `Execute`, in source
order (each operation under both its prefixed and its plain name). -/
def recognizedOrchestratorTools : List String :=
  ["orchestrator_orchestrator_register_agent", "orchestrator_register_agent",
   "orchestrator_orchestrator_list_agents", "orchestrator_list_agents",
   "orchestrator_orchestrator_get_agent", "orchestrator_get_agent",
   "orchestrator_orchestrator_delete_agent", "orchestrator_delete_agent",
   "orchestrator_orchestrator_run_agent", "orchestrator_run_agent",
   "orchestrator_orchestrator_run_parallel", "orchestrator_run_parallel",
   "orchestrator_orchestrator_run_workflow", "orchestrator_run_workflow",
   "orchestrator_orchestrator_evaluate", "orchestrator_evaluate",
   "orchestrator_orchestrator_evolve", "orchestrator_evolve",
   "orchestrator_orchestrator_get_result", "orchestrator_get_result",
   "orchestrator_orchestrator_create_workflow", "orchestrator_create_workflow",
   "orchestrator_orchestrator_list_workflows", "orchestrator_list_workflows"]

/-- Source method `Execute`: the dispatch switch.  Every recognized name
forwards to its handler; an unrecognized name falls through to the default
branch, which returns nil payload and nil error.  The outer `Option` is the
panic monad (`evolve` can panic). -/
def Execute (w : OrchestratorWorkerState) (name : String) (input : Option RawInput)
    (o : Oracle) : Option (ExecResult × OrchestratorWorkerState × Oracle) :=
  if name = "orchestrator_orchestrator_register_agent" ∨ name = "orchestrator_register_agent" then
    some (withParsed w o input fun r => registerAgent w
      { Name := r.Name, Model := r.Model, Provider := r.Provider,
        SystemPrompt := r.SystemPrompt, Tools := r.Tools, Temperature := r.Temperature,
        MaxTokens := r.MaxTokens, Metadata := r.Metadata } o)
  else if name = "orchestrator_orchestrator_list_agents" ∨ name = "orchestrator_list_agents" then
    some (toExec (listAgents w { Limit := (input.getD {}).Limit } o))
  else if name = "orchestrator_orchestrator_get_agent" ∨ name = "orchestrator_get_agent" then
    some (withParsed w o input fun r => getAgent w { AgentID := r.AgentID } o)
  else if name = "orchestrator_orchestrator_delete_agent" ∨ name = "orchestrator_delete_agent" then
    some (withParsed w o input fun r => deleteAgent w { AgentID := r.AgentID } o)
  else if name = "orchestrator_orchestrator_run_agent" ∨ name = "orchestrator_run_agent" then
    some (withParsed w o input fun r => runAgent w
      { AgentID := r.AgentID, Input := r.Input, Timeout := r.Timeout } o)
  else if name = "orchestrator_orchestrator_run_parallel" ∨ name = "orchestrator_run_parallel" then
    some (withParsed w o input fun r => runParallel w
      { AgentIDs := r.AgentIDs, Input := r.Input, Timeout := r.Timeout } o)
  else if name = "orchestrator_orchestrator_run_workflow" ∨ name = "orchestrator_run_workflow" then
    some (withParsed w o input fun r => runWorkflow w
      { WorkflowID := r.WorkflowID, InitialInput := r.InitialInput, Timeout := r.Timeout } o)
  else if name = "orchestrator_orchestrator_evaluate" ∨ name = "orchestrator_evaluate" then
    some (withParsed w o input fun r => evaluate w
      { RunID := r.RunID, Fitness := r.Fitness, Feedback := r.Feedback,
        Correctness := r.Correctness } o)
  else if name = "orchestrator_orchestrator_evolve" ∨ name = "orchestrator_evolve" then
    match input with
    | none => some (.failure "failed to parse request", w, o)
    | some r => (evolve w
        { Task := r.Task, ParentIDs := r.ParentIDs, PopulationSize := r.PopulationSize,
          Generations := r.Generations, MutationRate := r.MutationRate } o).map toExec
  else if name = "orchestrator_orchestrator_get_result" ∨ name = "orchestrator_get_result" then
    some (withParsed w o input fun r => getResult w { RunID := r.RunID } o)
  else if name = "orchestrator_orchestrator_create_workflow" ∨ name = "orchestrator_create_workflow" then
    some (withParsed w o input fun r => createWorkflow w { Name := r.Name, Steps := r.Steps } o)
  else if name = "orchestrator_orchestrator_list_workflows" ∨ name = "orchestrator_list_workflows" then
    some (toExec (listWorkflows w o))
  else
    some (.nilNil, w, o)

/-- Value read through the registered genome after the tool-removal branch of
`mutate` runs on a copy of it.  The Go statement
`mutated.Tools = append(agent.Tools[:idx], agent.Tools[idx+1:]...)` reuses
the backing array of `agent.Tools` (the prefix slice has capacity for the
appended elements), copying elements `idx+1 .. n-1` onto cells
`idx .. n-2` and leaving cell `n-1` unchanged.  A registered genome whose
tool slice shares this backing array — `evolve` hands `mutate` a struct copy
of the registry entry, and a Go struct copy shares slice backing arrays —
keeps its length `n` and afterwards reads the list below. -/
def goBackingAfterToolRemove (tools : List String) (idx : Nat) : List String :=
  tools.take idx ++ tools.drop (idx + 1) ++ tools.drop (tools.length - 1)

/-- Modelled from the spec: the sentence `After all rounds, the top 3 by
fitness are persisted into the Registry and returned` describes the three
maximal members of the final population under descending fitness.  Stated
with the same exchange sort the source uses inside the loop; the claims that
compare against it use pairwise-distinct fitness values, so any descending
ordering yields the same selection. -/
def specTop3ByFitness (pop : List ScoredAgent) : List ScoredAgent :=
  (selSort pop).take 3

/-- Keyed read of an array field out of a JSON object (used to state claims
about marshalled responses). -/
def J.getArr (j : J) (k : String) : List J :=
  match j with
  | .obj fields =>
      match alookup fields k with
      | some (.arr xs) => xs
      | _ => []
  | _ => []

/-- Keyed read of a numeric field out of a JSON object. -/
def J.getNum (j : J) (k : String) : ℚ :=
  match j with
  | .obj fields =>
      match alookup fields k with
      | some (.num q) => q
      | _ => 0
  | _ => 0

/-!  Concrete scenario material shared by the witnesses and counterexamples:
a deterministic oracle tape and a handful of small registered genomes. -/

/-- Oracle tape whose floats are all `9/10` (so no mutation branch fires at
the default rate), whose raw `Intn` values are 0 and whose clock ticks are
the tape positions. -/
def plainOracle : Oracle :=
  { floats := fun _ => 9/10, ints := fun _ => 0, times := fun n => n, pos := 0 }

/-- A registered genome with ID `A`. -/
def agentAlice : AgentGenome :=
  { ID := "A", Name := "Alice", Model := "m", Provider := "",
    SystemPrompt := "", Tools := [], Temperature := 0, MaxTokens := 0, Metadata := [],
    CreatedAt := 0, Fitness := 1/2, Generation := 0, ParentIDs := [] }

/-- A registered genome with ID `C`. -/
def agentCarol : AgentGenome :=
  { ID := "C", Name := "Carol", Model := "m", Provider := "",
    SystemPrompt := "", Tools := [], Temperature := 0, MaxTokens := 0, Metadata := [],
    CreatedAt := 0, Fitness := 1/2, Generation := 0, ParentIDs := [] }

/-!  Structural lemmas about the handlers. -/

theorem crossover_fields (p1 p2 : AgentGenome) (o : Oracle) :
    (crossover p1 p2 o).1.Name = p1.Name ∧
    (crossover p1 p2 o).1.Generation = p1.Generation ∧
    (crossover p1 p2 o).1.ParentIDs = p1.ParentIDs ∧
    (crossover p1 p2 o).1.Fitness = 1/2 := by
  unfold crossover
  dsimp only
  split <;> exact ⟨rfl, rfl, rfl, rfl⟩

theorem runAgent_frame (w : OrchestratorWorkerState) (req : RunAgentReq) (o : Oracle) :
    (runAgent w req o).2.1.Agents = w.Agents ∧
    (runAgent w req o).2.1.LLMProvider = w.LLMProvider ∧
    (runAgent w req o).2.1.Workflows = w.Workflows ∧
    (runAgent w req o).2.1.MaxParallel = w.MaxParallel := by
  unfold runAgent
  dsimp only
  split
  · exact ⟨rfl, rfl, rfl, rfl⟩
  · split
    · exact ⟨rfl, rfl, rfl, rfl⟩
    · split <;> exact ⟨rfl, rfl, rfl, rfl⟩

set_option maxHeartbeats 1000000 in
theorem mutate_eq_some (a : AgentGenome) (rate : ℚ) (o : Oracle) (g : AgentGenome) (o2 : Oracle)
    (h : mutate a rate o = some (g, o2)) :
    g.Name = a.Name ∧ g.Generation = a.Generation ∧ g.ParentIDs = a.ParentIDs ∧
    g.Fitness = a.Fitness := by
  unfold mutate at h
  dsimp only at h
  repeat' first
    | split at h
    | simp only [Option.pure_def, Option.bind_eq_bind, Option.some_bind,
        Option.none_bind, Oracle.intn] at h
  all_goals first
    | (obtain ⟨rfl, rfl⟩ := Prod.mk.injEq .. ▸ Option.some.inj h; exact ⟨rfl, rfl, rfl, rfl⟩)
    | omega

set_option maxHeartbeats 1000000 in
theorem mutate_isSome (a : AgentGenome) (rate : ℚ) (o : Oracle) :
    (mutate a rate o).isSome := by
  unfold mutate
  dsimp only
  repeat' first
    | split
    | simp only [Option.pure_def, Option.bind_eq_bind, Option.some_bind, Option.none_bind,
        Option.isSome_some, Oracle.intn]
  all_goals first
    | rfl
    | omega

theorem innerPass_perm (x : ScoredAgent) (l : List ScoredAgent) :
    List.Perm ((innerPass x l).1 :: (innerPass x l).2) (x :: l) := by
  induction l generalizing x with
  | nil => simp [innerPass]
  | cons y ys ih =>
      by_cases h : x.score < y.score
      · simp only [innerPass, if_pos h]
        exact (List.Perm.swap x (innerPass y ys).1 (innerPass y ys).2).trans ((ih y).cons x)
      · simp only [innerPass, if_neg h]
        exact (List.Perm.swap y (innerPass x ys).1 (innerPass x ys).2).trans
          (((ih x).cons y).trans (List.Perm.swap x y ys))

theorem selSortAux_perm : ∀ (f : Nat) (l : List ScoredAgent), l.length ≤ f →
    List.Perm (selSortAux f l) l := by
  intro f
  induction f with
  | zero =>
      intro l h
      cases l with
      | nil => simp [selSortAux]
      | cons x xs => simp at h
  | succ f ih =>
      intro l h
      cases l with
      | nil => simp [selSortAux]
      | cons x xs =>
          rw [selSortAux]
          refine ((ih _ ?_).cons _).trans (innerPass_perm x xs)
          rw [innerPass_length]
          exact Nat.le_of_succ_le_succ h

theorem selSort_perm (l : List ScoredAgent) : List.Perm (selSort l) l :=
  selSortAux_perm l.length l le_rfl

theorem selSort_length (l : List ScoredAgent) : (selSort l).length = l.length :=
  (selSort_perm l).length_eq

theorem evalPop_length (pop : List ScoredAgent) (o : Oracle) :
    (evalPop pop o).1.length = pop.length := by
  induction pop generalizing o with
  | nil => rfl
  | cons sa rest ih => simp [evalPop, ih]

theorem evalPop_mem (pop : List ScoredAgent) (o : Oracle) :
    ∀ sa ∈ (evalPop pop o).1, ∃ sb ∈ pop,
      sa.genome.Generation = sb.genome.Generation ∧
      sa.genome.ParentIDs = sb.genome.ParentIDs := by
  induction pop generalizing o with
  | nil => intro sa h; cases h
  | cons sb rest ih =>
      intro sa h
      rw [evalPop] at h
      rcases List.mem_cons.1 h with h1 | h2
      · exact ⟨sb, List.mem_cons_self .., by subst h1; exact ⟨rfl, rfl⟩⟩
      · obtain ⟨sc, hm, he⟩ := ih _ sa h2
        exact ⟨sc, List.mem_cons_of_mem _ hm, he⟩

theorem isSome_bind_of {α β : Type} (x : Option α) (f : α → Option β) (hx : x.isSome)
    (hf : ∀ a, (f a).isSome) : (x >>= f).isSome := by
  obtain ⟨a, rfl⟩ := Option.isSome_iff_exists.1 hx
  simpa using hf a

theorem buildInit_isSome (parents : List AgentGenome) (hp : parents.length ≠ 0) (rate : ℚ)
    (pids : List String) : ∀ r i o, (buildInit parents rate pids i r o).isSome := by
  intro r
  induction r with
  | zero => intro i o; rfl
  | succ r ih =>
      intro i o
      unfold buildInit
      dsimp only
      by_cases hi : i < parents.length
      · rw [dif_pos hi]
        refine isSome_bind_of _ _ (mutate_isSome ..) ?_
        rintro ⟨g0, o3⟩
        dsimp only
        refine isSome_bind_of _ _ (ih ..) ?_
        rintro ⟨rest, o4⟩
        rfl
      · rw [dif_neg hi]
        refine isSome_bind_of _ _ ?_ ?_
        · simp [Oracle.intn, hp]
        · rintro ⟨k, o3⟩
          refine isSome_bind_of _ _ (mutate_isSome ..) ?_
          rintro ⟨g0, o4⟩
          dsimp only
          refine isSome_bind_of _ _ (ih ..) ?_
          rintro ⟨rest, o5⟩
          rfl

theorem buildInit_spec (parents : List AgentGenome) (rate : ℚ) (pids : List String) :
    ∀ r i o l o2, buildInit parents rate pids i r o = some (l, o2) →
      l.length = r ∧ ∀ sa ∈ l, sa.genome.Generation = 1 ∧ sa.genome.ParentIDs = pids := by
  intro r
  induction r with
  | zero =>
      intro i o l o2 h
      obtain ⟨rfl, rfl⟩ := Prod.mk.injEq .. ▸ Option.some.inj h
      exact ⟨rfl, by intro sa h; cases h⟩
  | succ r ih =>
      intro i o l o2 h
      unfold buildInit at h
      dsimp only at h
      by_cases hi : i < parents.length
      · rw [dif_pos hi, Option.bind_eq_bind, Option.bind_eq_some] at h
        obtain ⟨⟨g0, o3⟩, hx, h⟩ := h
        dsimp only at h
        rw [Option.bind_eq_bind, Option.bind_eq_some] at h
        obtain ⟨⟨rest, o4⟩, hrec, h⟩ := h
        obtain ⟨rfl, rfl⟩ := Prod.mk.injEq .. ▸ Option.some.inj h
        obtain ⟨hl, hmem⟩ := ih _ _ _ _ hrec
        refine ⟨by simp [hl], ?_⟩
        intro sa hsa
        rcases List.mem_cons.1 hsa with h1 | h2
        · subst h1; exact ⟨rfl, rfl⟩
        · exact hmem sa h2
      · rw [dif_neg hi, Option.bind_eq_bind, Option.bind_eq_some] at h
        obtain ⟨⟨k, o3⟩, hk, h⟩ := h
        rw [Option.bind_eq_bind, Option.bind_eq_some] at h
        obtain ⟨⟨g0, o4⟩, hx, h⟩ := h
        dsimp only at h
        rw [Option.bind_eq_bind, Option.bind_eq_some] at h
        obtain ⟨⟨rest, o5⟩, hrec, h⟩ := h
        obtain ⟨rfl, rfl⟩ := Prod.mk.injEq .. ▸ Option.some.inj h
        obtain ⟨hl, hmem⟩ := ih _ _ _ _ hrec
        refine ⟨by simp [hl], ?_⟩
        intro sa hsa
        rcases List.mem_cons.1 hsa with h1 | h2
        · subst h1; exact ⟨rfl, rfl⟩
        · exact hmem sa h2
theorem refill_isSome (sorted : List ScoredAgent) (eliteCount : Nat) (h : eliteCount ≤ sorted.length)
    (rate : ℚ) (genNumber : Nat) (hE : eliteCount ≠ 0) :
    ∀ r o, (refill sorted eliteCount h rate genNumber r o).isSome := by
  intro r
  induction r with
  | zero => intro o; rfl
  | succ r ih =>
      intro o
      unfold refill
      dsimp only
      refine isSome_bind_of _ _ (by simp [Oracle.intn, hE]) ?_
      rintro ⟨k1, o1⟩
      refine isSome_bind_of _ _ (by simp [Oracle.intn, hE]) ?_
      rintro ⟨k2, o2⟩
      dsimp only
      split
      · refine isSome_bind_of _ _ rfl ?_
        rintro ⟨child0, o3⟩
        dsimp only
        refine isSome_bind_of _ _ (ih ..) ?_
        rintro ⟨rest, o4⟩
        rfl
      · refine isSome_bind_of _ _ (mutate_isSome ..) ?_
        rintro ⟨child0, o3⟩
        dsimp only
        refine isSome_bind_of _ _ (ih ..) ?_
        rintro ⟨rest, o4⟩
        rfl

theorem refill_spec (sorted : List ScoredAgent) (eliteCount : Nat) (h : eliteCount ≤ sorted.length)
    (rate : ℚ) (genNumber : Nat) :
    ∀ r o l o2, refill sorted eliteCount h rate genNumber r o = some (l, o2) →
      l.length = r ∧ ∀ sa ∈ l, sa.genome.Generation = genNumber + 1 ∧
        sa.genome.ParentIDs.length = 2 := by
  intro r
  induction r with
  | zero =>
      intro o l o2 hq
      obtain ⟨rfl, rfl⟩ := Prod.mk.injEq .. ▸ Option.some.inj hq
      exact ⟨rfl, by intro sa hs; cases hs⟩
  | succ r ih =>
      intro o l o2 hq
      unfold refill at hq
      dsimp only at hq
      rw [Option.bind_eq_bind, Option.bind_eq_some] at hq
      obtain ⟨⟨k1, o1⟩, h1, hq⟩ := hq
      rw [Option.bind_eq_bind, Option.bind_eq_some] at hq
      obtain ⟨⟨k2, o2x⟩, h2, hq⟩ := hq
      dsimp only at hq
      split at hq
      all_goals (
        simp only [Option.pure_def, Option.bind_eq_bind, Option.bind_eq_some] at hq
        obtain ⟨⟨child0, o3⟩, h3, ⟨rest, o4⟩, hrec, hq⟩ := hq
        obtain ⟨rfl, rfl⟩ := Prod.mk.injEq .. ▸ Option.some.inj hq
        obtain ⟨hl, hmem⟩ := ih _ _ _ hrec
        refine ⟨by simp [hl], ?_⟩
        intro sa hsa
        rcases List.mem_cons.1 hsa with hc | hc
        · subst hc; exact ⟨rfl, rfl⟩
        · exact hmem sa hc)
/-- Invariant of the evolution loop population. -/
def genomeInv (sa : ScoredAgent) : Prop :=
  1 ≤ sa.genome.Generation ∧
    (sa.genome.ParentIDs.length = 1 ∨ sa.genome.ParentIDs.length = 2)

theorem generationStep_isSome (rate : ℚ) (n genNumber : Nat) (pop : List ScoredAgent) (o : Oracle)
    (hlen : pop.length = n) (h2 : 2 ≤ n) :
    (generationStep rate n genNumber pop o).isSome := by
  unfold generationStep
  dsimp only
  refine isSome_bind_of _ _ (refill_isSome _ _ _ _ _ ?_ _ _) ?_
  · rw [selSort_length, evalPop_length, hlen]
    omega
  · rintro ⟨children, o3⟩
    rfl

theorem generationStep_spec (rate : ℚ) (n genNumber : Nat) (pop pop2 : List ScoredAgent)
    (o o2 : Oracle) (h : generationStep rate n genNumber pop o = some (pop2, o2))
    (hlen : pop.length = n) (hinv : ∀ sa ∈ pop, genomeInv sa) :
    pop2.length = n ∧ ∀ sa ∈ pop2, genomeInv sa := by
  have hsl : (selSort (evalPop pop o).1).length = n := by
    rw [selSort_length, evalPop_length, hlen]
  unfold generationStep at h
  dsimp only at h
  simp only [Option.pure_def, Option.bind_eq_bind, Option.bind_eq_some] at h
  obtain ⟨⟨children, o3⟩, hr, h⟩ := h
  obtain ⟨rfl, rfl⟩ := Prod.mk.injEq .. ▸ Option.some.inj h
  obtain ⟨hcl, hcmem⟩ := refill_spec _ _ _ _ _ _ _ _ _ hr
  constructor
  · rw [List.length_append, List.length_take, hcl, hsl]
    omega
  · intro sa hsa
    rcases List.mem_append.1 hsa with hs | hs
    · have hs2 : sa ∈ selSort (evalPop pop o).1 := List.mem_of_mem_take hs
      have hs3 : sa ∈ (evalPop pop o).1 := (selSort_perm _).mem_iff.1 hs2
      obtain ⟨sb, hsb, hgen, hpids⟩ := evalPop_mem pop o sa hs3
      obtain ⟨hg1, hp1⟩ := hinv sb hsb
      exact ⟨by rw [hgen]; exact hg1, by rw [hpids]; exact hp1⟩
    · obtain ⟨hg, hp⟩ := hcmem sa hs
      exact ⟨by rw [hg]; omega, Or.inr hp⟩

theorem runGenerations_inv (rate : ℚ) (n : Nat) (h2 : 2 ≤ n) :
    ∀ gens genNumber pop o, pop.length = n → (∀ sa ∈ pop, genomeInv sa) →
      ∃ pop2 o2, runGenerations rate n genNumber gens pop o = some (pop2, o2) ∧
        pop2.length = n ∧ ∀ sa ∈ pop2, genomeInv sa := by
  intro gens
  induction gens with
  | zero => exact fun genN pop o hl hi => ⟨pop, o, rfl, hl, hi⟩
  | succ g ih =>
      intro genN pop o hl hi
      obtain ⟨⟨p1, o1⟩, hstep⟩ :=
        Option.isSome_iff_exists.1 (generationStep_isSome rate n genN pop o hl h2)
      obtain ⟨hl1, hi1⟩ := generationStep_spec rate n genN pop p1 o o1 hstep hl hi
      obtain ⟨pop2, o2, hrun, hl2, hi2⟩ := ih (genN + 1) p1 o1 hl1 hi1
      refine ⟨pop2, o2, ?_, hl2, hi2⟩
      unfold runGenerations
      dsimp only
      rw [Option.bind_eq_bind, hstep, Option.some_bind]
      exact hrun

theorem refill_none_of_zero (sorted : List ScoredAgent) (e : Nat) (hp : e ≤ sorted.length)
    (rate : ℚ) (genN r : Nat) (o : Oracle) (he : e = 0) (hr : r ≠ 0) :
    refill sorted e hp rate genN r o = none := by
  subst he
  cases r with
  | zero => exact absurd rfl hr
  | succ r => rfl

theorem generationStep_none (rate : ℚ) (genNumber : Nat) (pop : List ScoredAgent) (o : Oracle)
    (hlen : pop.length = 1) :
    generationStep rate 1 genNumber pop o = none := by
  have hsl : (selSort (evalPop pop o).1).length = 1 := by
    rw [selSort_length, evalPop_length, hlen]
  have he : min 2 ((selSort (evalPop pop o).1).length / 2) = 0 := by rw [hsl]; decide
  unfold generationStep
  dsimp only
  rw [Option.bind_eq_bind, refill_none_of_zero _ _ _ _ _ _ _ he (by rw [he]; decide)]
  rfl

theorem runGenerations_none (rate : ℚ) (n genN gens : Nat) (pop : List ScoredAgent) (o : Oracle)
    (hg : gens ≠ 0) (hstep : generationStep rate n genN pop o = none) :
    runGenerations rate n genN gens pop o = none := by
  cases gens with
  | zero => exact absurd rfl hg
  | succ g =>
      unfold runGenerations
      dsimp only
      rw [Option.bind_eq_bind, hstep]
      rfl

theorem alookup_foldl_ainsert_not_mem (l : List AgentGenome) (m : List (String × AgentGenome))
    (k : String) (hk : k ∉ l.map (·.ID)) :
    alookup (l.foldl (fun m g => ainsert m g.ID g) m) k = alookup m k := by
  induction l generalizing m with
  | nil => rfl
  | cons a rest ih =>
      rw [List.foldl_cons]
      have hk1 : k ≠ a.ID := fun he => hk (by simp [he])
      have hk2 : k ∉ rest.map (·.ID) := fun hm => hk (by simp [hm])
      rw [ih _ hk2, alookup_ainsert_ne _ _ _ _ (fun he => hk1 he.symm)]

theorem alookup_foldl_ainsert_self (l : List AgentGenome) (m : List (String × AgentGenome))
    (hnd : (l.map (·.ID)).Nodup) :
    ∀ g ∈ l, alookup (l.foldl (fun m g => ainsert m g.ID g) m) g.ID = some g := by
  induction l generalizing m with
  | nil => intro g h; cases h
  | cons a rest ih =>
      intro g hg
      rw [List.foldl_cons]
      rcases List.mem_cons.1 hg with rfl | hmem
      · have hnot : g.ID ∉ rest.map (·.ID) := (List.nodup_cons.1 (by simpa using hnd)).1
        rw [alookup_foldl_ainsert_not_mem _ _ _ hnot]
        exact alookup_ainsert_self ..
      · exact ih _ (by simpa using (List.nodup_cons.1 (by simpa using hnd)).2) g hmem

/-- C9: evolve is not total in the population size.  With populationSize = 1
and at least one resolvable parent, the elite count of every round is
min 2 (1/2) = 0, the refill loop evaluates rand.Intn 0, and the Go code
panics — modelled as the `none` outcome, so evolve returns no result
(generations defaults to 5 when 0, so at least one round always runs). -/
theorem evolve_popsize_one_panics (w : OrchestratorWorkerState) (req : EvolveReq)
    (o : Oracle) (hpop : req.PopulationSize = 1)
    (hp : (req.ParentIDs.filterMap (alookup w.Agents)).length ≠ 0) :
    evolve w req o = none := by
  unfold evolve evolvePopAux
  dsimp only
  rw [if_neg hp]
  have hps : (if req.PopulationSize = 0 then 10 else req.PopulationSize) = 1 := by
    rw [hpop]; decide
  rw [hps]
  obtain ⟨⟨pop0, o1⟩, hb⟩ := Option.isSome_iff_exists.1
    (buildInit_isSome (req.ParentIDs.filterMap (alookup w.Agents)) hp
      (if req.MutationRate = 0 then 1/10 else req.MutationRate) req.ParentIDs 1 0 o)
  obtain ⟨hl0, _⟩ := buildInit_spec _ _ _ _ _ _ _ _ hb
  simp only [Option.bind_eq_bind, hb, Option.some_bind]
  rw [runGenerations_none _ _ _ _ _ _ (by split <;> simp_all) (generationStep_none _ _ _ _ hl0)]
  rfl
/-- C2 (amended): with one resolvable parent, populationSize 6 and
generations 2, evolve always succeeds and persists into the registry and
returns exactly the FIRST 3 members of the final population — the last
round's two elites followed by the first refill child, not in general the
top 3 by fitness — each with generation at least 1 and with 1 or 2 recorded
parent IDs; when the three fresh IDs are distinct all three are retrievable
from the registry afterwards. -/
theorem evolve_persists_first_three (w : OrchestratorWorkerState) (req : EvolveReq) (o : Oracle)
    (pid : String) (p : AgentGenome)
    (hpids : req.ParentIDs = [pid]) (hlook : alookup w.Agents pid = some p)
    (hpop : req.PopulationSize = 6) (hgen : req.Generations = 2) :
    ∃ finalPop o2 j w2,
      evolvePopAux [p] 6 2 (if req.MutationRate = 0 then 1/10 else req.MutationRate)
          req.ParentIDs o = some (finalPop, o2) ∧
      evolve w req o = some (.ok j, w2, o2) ∧
      ((finalPop.take (min 3 finalPop.length)).map (·.genome)).length = 3 ∧
      (∀ g ∈ (finalPop.take (min 3 finalPop.length)).map (·.genome),
        1 ≤ g.Generation ∧ (g.ParentIDs.length = 1 ∨ g.ParentIDs.length = 2)) ∧
      j.getArr "best_agents"
        = ((finalPop.take (min 3 finalPop.length)).map (·.genome)).map AgentGenome.toJ ∧
      w2.Agents = ((finalPop.take (min 3 finalPop.length)).map (·.genome)).foldl
          (fun m g => ainsert m g.ID g) w.Agents ∧
      ((((finalPop.take (min 3 finalPop.length)).map (·.genome)).map (·.ID)).Nodup →
        ∀ g ∈ (finalPop.take (min 3 finalPop.length)).map (·.genome),
          alookup w2.Agents g.ID = some g) := by
  have hparents : req.ParentIDs.filterMap (alookup w.Agents) = [p] := by
    rw [hpids]
    simp [List.filterMap_cons, hlook]
  obtain ⟨⟨pop0, o1⟩, hb⟩ := Option.isSome_iff_exists.1
    (buildInit_isSome [p] (by simp)
      (if req.MutationRate = 0 then 1/10 else req.MutationRate) req.ParentIDs 6 0 o)
  obtain ⟨hl0, hmem0⟩ := buildInit_spec _ _ _ _ _ _ _ _ hb
  have hinv0 : ∀ sa ∈ pop0, genomeInv sa := by
    intro sa hs
    obtain ⟨hg, hpids2⟩ := hmem0 sa hs
    exact ⟨by rw [hg], Or.inl (by rw [hpids2, hpids]; rfl)⟩
  obtain ⟨finalPop, o2, hrun, hlf, hinvf⟩ :=
    runGenerations_inv _ 6 (by omega) 2 0 pop0 o1 hl0 hinv0
  have hpa : evolvePopAux [p] 6 2
      (if req.MutationRate = 0 then 1/10 else req.MutationRate) req.ParentIDs o
      = some (finalPop, o2) := by
    unfold evolvePopAux
    dsimp only
    rw [Option.bind_eq_bind, hb, Option.some_bind]
    exact hrun
  obtain ⟨hd, tl, hf⟩ : ∃ hd tl, finalPop = hd :: tl := by
    cases finalPop with
    | nil => simp at hlf
    | cons hd tl => exact ⟨hd, tl, rfl⟩
  refine ⟨finalPop, o2,
    J.obj [("evolved", .bool true), ("generations", .num 2),
      ("best_agents", .arr ((((finalPop.take (min 3 finalPop.length)).map (·.genome)).map AgentGenome.toJ))),
      ("best_fitness", .num hd.score)],
    { w with
      Agents := ((finalPop.take (min 3 finalPop.length)).map (·.genome)).foldl
        (fun m g => ainsert m g.ID g) w.Agents },
    hpa, ?_, ?_, ?_, ?_, rfl, ?_⟩
  · unfold evolve
    dsimp only
    rw [hparents, if_neg (by simp)]
    have hps6 : (if req.PopulationSize = 0 then 10 else req.PopulationSize) = 6 := by
      rw [hpop]; decide
    have hgens2 : (if req.Generations = 0 then 5 else req.Generations) = 2 := by
      rw [hgen]; decide
    rw [hps6, hgens2, Option.bind_eq_bind, hpa, Option.some_bind]
    dsimp only
    rw [hf]
    simp only [List.head?_cons, Option.bind_eq_bind, Option.some_bind]
    rfl
  · rw [List.length_map, List.length_take, hlf]
    decide
  · intro g hg
    obtain ⟨sa, hsa, rfl⟩ := List.mem_map.1 hg
    exact hinvf sa (List.mem_of_mem_take hsa)
  · simp [J.getArr, alookup]
  · intro hnd g hg
    exact alookup_foldl_ainsert_self _ _ hnd g hg

/-- A registered seed genome with ID `P` (temperature 2/5, no tools, empty
prompt). -/
def genomeP : AgentGenome :=
  { ID := "P", Name := "P", Model := "m", Provider := "",
    SystemPrompt := "", Tools := [], Temperature := 2/5, MaxTokens := 0, Metadata := [],
    CreatedAt := 0, Fitness := 1/2, Generation := 0, ParentIDs := [] }

/-- State holding only the seed genome `P`. -/
def seedState : OrchestratorWorkerState :=
  { Agents := [("P", genomeP)], Runs := [], Workflows := [],
    LLMProvider := none, MaxParallel := 10, DefaultTimeout := 120 }

/-- Oracle tape driving `evolve(parentIDs=[P], populationSize=4, generations=1)`
to evaluation scores 11/25, 37/100, 7/20, 3/10 (tape positions 19 to 22) and
to crossover children in both refill slots (positions 25 and 30), with all
other draws high. -/
def evolveCtrOracle : Oracle :=
  { floats := fun n =>
      if n = 19 then 1/5 else if n = 20 then 1/10 else if n = 21 then 1/14
      else if n = 22 then 0 else if n = 25 then 0 else if n = 30 then 0 else 9/10,
    ints := fun _ => 0, times := fun n => n, pos := 0 }

/-- The evolve request of the counterexample run. -/
def evolveCtrReq : EvolveReq :=
  { Task := "", ParentIDs := ["P"], PopulationSize := 4, Generations := 1, MutationRate := 0 }

/-- C2 counterexample: a concrete evolve call (populationSize 4,
generations 1, parent `P`) whose final population carries fitness values
[11/25, 37/100, 1/2, 1/2], whereas the three persisted-and-returned genomes
carry [11/25, 37/100, 1/2] — the member with fitness 37/100 is persisted
although three other members have strictly higher fitness, so the persisted
set is not the top 3 of the final population ordered by fitness
(`specTop3ByFitness` gives [1/2, 1/2, 11/25]). -/
theorem evolve_top3_counterexample :
    (evolve seedState evolveCtrReq evolveCtrOracle).map (fun r =>
      match r.1 with
      | .ok j => (j.getArr "best_agents").map (fun g => g.getNum "fitness")
      | .error _ => []) = some [11/25, 37/100, 1/2]
    ∧ (evolvePopAux [genomeP] 4 1 (1/10) ["P"] evolveCtrOracle).map
        (fun pr => pr.1.map (·.genome.Fitness)) = some [11/25, 37/100, 1/2, 1/2]
    ∧ (evolvePopAux [genomeP] 4 1 (1/10) ["P"] evolveCtrOracle).map
        (fun pr => (specTop3ByFitness pr.1).map (·.genome.Fitness)) = some [1/2, 1/2, 11/25]
    ∧ ([11/25, 37/100, 1/2] : List ℚ) ≠ [1/2, 1/2, 11/25] :=
  ⟨by with_unfolding_all decide, by with_unfolding_all decide, by with_unfolding_all decide,
   by with_unfolding_all decide⟩

/-- The evolve request of the populationSize-1 run. -/
def popOneReq : EvolveReq :=
  { Task := "", ParentIDs := ["P"], PopulationSize := 1, Generations := 2, MutationRate := 0 }

/-- C9 witness: the hypotheses of `evolve_popsize_one_panics` hold at a
concrete state and request, and evolve panics there. -/
theorem evolve_popsize_one_panics_witness :
    (popOneReq.ParentIDs.filterMap (alookup seedState.Agents)).length ≠ 0 ∧
    evolve seedState popOneReq plainOracle = none :=
  ⟨by decide, evolve_popsize_one_panics seedState popOneReq plainOracle rfl (by decide)⟩
/-- The evolve request of the spec example instance (populationSize 6,
generations 2, one parent). -/
def evolveWitReq : EvolveReq :=
  { Task := "", ParentIDs := ["P"], PopulationSize := 6, Generations := 2, MutationRate := 0 }

/-- C2 witness: `evolve_persists_first_three` applied at the concrete seed
state, spec-example request and a concrete oracle tape. -/
theorem evolve_persists_first_three_witness :
    ∃ finalPop o2 j w2,
      evolvePopAux [genomeP] 6 2
          (if evolveWitReq.MutationRate = 0 then 1/10 else evolveWitReq.MutationRate)
          evolveWitReq.ParentIDs plainOracle = some (finalPop, o2) ∧
      evolve seedState evolveWitReq plainOracle = some (.ok j, w2, o2) ∧
      ((finalPop.take (min 3 finalPop.length)).map (·.genome)).length = 3 ∧
      (∀ g ∈ (finalPop.take (min 3 finalPop.length)).map (·.genome),
        1 ≤ g.Generation ∧ (g.ParentIDs.length = 1 ∨ g.ParentIDs.length = 2)) ∧
      j.getArr "best_agents"
        = ((finalPop.take (min 3 finalPop.length)).map (·.genome)).map AgentGenome.toJ ∧
      w2.Agents = ((finalPop.take (min 3 finalPop.length)).map (·.genome)).foldl
          (fun m g => ainsert m g.ID g) seedState.Agents ∧
      ((((finalPop.take (min 3 finalPop.length)).map (·.genome)).map (·.ID)).Nodup →
        ∀ g ∈ (finalPop.take (min 3 finalPop.length)).map (·.genome),
          alookup w2.Agents g.ID = some g) :=
  evolve_persists_first_three seedState evolveWitReq plainOracle "P" genomeP rfl rfl rfl rfl

theorem ainsert_ainsert {α : Type} (m : List (String × α)) (k : String) (v v2 : α) :
    ainsert (ainsert m k v) k v2 = ainsert m k v2 := by
  induction m with
  | nil => simp [ainsert]
  | cons p rest ih =>
      obtain ⟨k2, v3⟩ := p
      by_cases h : k2 = k
      · simp [ainsert, h]
      · simp [ainsert, h, ih]

/-- Evaluation of `runAgent` on a registered agent with no LLM abstraction
configured: a run is created and completed with the simulated output, and the
payload reports status `completed`. -/
theorem runAgent_no_llm (w : OrchestratorWorkerState) (req : RunAgentReq) (o : Oracle)
    (agent : AgentGenome)
    (hid : req.AgentID ≠ "") (hin : req.Input ≠ "")
    (hlook : alookup w.Agents req.AgentID = some agent) (hllm : w.LLMProvider = none) :
    runAgent w req o =
      (.ok (J.obj [("run_id", .str (generateRunID (o.times o.pos))),
        ("status", .str "completed"),
        ("output", .str ("[Simulated] Agent \x27" ++ agent.Name ++ "\x27 would process: " ++ req.Input))]),
       { w with
         Runs := ainsert w.Runs (generateRunID (o.times o.pos))
           { RunID := generateRunID (o.times o.pos), GenomeID := req.AgentID, Input := req.Input,
             Output := "[Simulated] Agent \x27" ++ agent.Name ++ "\x27 would process: " ++ req.Input,
             Status := "completed", Fitness := 0, StartedAt := o.times (o.pos + 1),
             CompletedAt := some (o.times (o.pos + 2)), Error := "", Metadata := [] } },
       o.next.next.next) := by
  unfold runAgent
  dsimp only
  rw [if_neg (by simp [hid, hin]), hlook]
  dsimp only [Oracle.nextTime, Oracle.next]
  rw [hllm]
  dsimp only
  rw [alookup_ainsert_self]
  dsimp only [Option.getD]
  rw [ainsert_ainsert]

/-- Evaluation of `runAgent` at an unregistered agent ID: a hard error, with
no state change. -/
theorem runAgent_not_found (w : OrchestratorWorkerState) (req : RunAgentReq) (o : Oracle)
    (hid : req.AgentID ≠ "") (hin : req.Input ≠ "")
    (hlook : alookup w.Agents req.AgentID = none) :
    runAgent w req o = (.error ("agent not found: " ++ req.AgentID), w, o) := by
  unfold runAgent
  dsimp only
  rw [if_neg (by simp [hid, hin]), hlook]
/-- C7: for every registered agent ID and non-empty input, runAgent with no
LLM abstraction configured returns status `completed` (never `failed`) with
the deterministic placeholder output naming the agent and the input, and
records the run as completed with that output. -/
theorem runAgent_no_llm_completes (w : OrchestratorWorkerState) (req : RunAgentReq) (o : Oracle)
    (agent : AgentGenome) (hid : req.AgentID ≠ "") (hin : req.Input ≠ "")
    (hlook : alookup w.Agents req.AgentID = some agent) (hllm : w.LLMProvider = none) :
    ∃ rid w2 o2,
      runAgent w req o = (.ok (J.obj [("run_id", .str rid), ("status", .str "completed"),
        ("output", .str ("[Simulated] Agent \x27" ++ agent.Name ++ "\x27 would process: " ++ req.Input))]),
        w2, o2) ∧
      ∃ run, alookup w2.Runs rid = some run ∧ run.Status = "completed" ∧
        run.Output = "[Simulated] Agent \x27" ++ agent.Name ++ "\x27 would process: " ++ req.Input ∧
        run.GenomeID = req.AgentID := by
  refine ⟨generateRunID (o.times o.pos), _, _,
    runAgent_no_llm w req o agent hid hin hlook hllm, ?_⟩
  exact ⟨_, alookup_ainsert_self .., rfl, rfl, rfl⟩

/-- C7 witness: agent `P` on input `go` with no provider configured. -/
theorem runAgent_no_llm_completes_witness :
    ∃ rid w2 o2,
      runAgent seedState { AgentID := "P", Input := "go", Timeout := 0 } plainOracle
        = (.ok (J.obj [("run_id", .str rid), ("status", .str "completed"),
          ("output", .str ("[Simulated] Agent \x27" ++ genomeP.Name ++ "\x27 would process: "
            ++ ({ AgentID := "P", Input := "go", Timeout := 0 } : RunAgentReq).Input))]),
          w2, o2) ∧
      ∃ run, alookup w2.Runs rid = some run ∧ run.Status = "completed" ∧
        run.Output = "[Simulated] Agent \x27" ++ genomeP.Name ++ "\x27 would process: "
          ++ ({ AgentID := "P", Input := "go", Timeout := 0 } : RunAgentReq).Input ∧
        run.GenomeID = ({ AgentID := "P", Input := "go", Timeout := 0 } : RunAgentReq).AgentID :=
  runAgent_no_llm_completes seedState { AgentID := "P", Input := "go", Timeout := 0 } plainOracle
    genomeP (by decide) (by decide) rfl rfl

/-- Three-step workflow whose middle step names an unregistered agent. -/
def wfThreeSteps : Workflow :=
  { ID := "W3", Name := "wf3", CreatedAt := 0,
    Steps := [{ StepID := "s1", AgentID := "A", Parallel := false, Inputs := [] },
              { StepID := "s2", AgentID := "B", Parallel := false, Inputs := [] },
              { StepID := "s3", AgentID := "C", Parallel := false, Inputs := [] }] }

/-- State for the workflow-abort scenario: agents `A` and `C` registered,
`B` absent, no LLM provider. -/
def wfAbortState : OrchestratorWorkerState :=
  { Agents := [("A", agentAlice), ("C", agentCarol)], Runs := [], Workflows := [("W3", wfThreeSteps)],
    LLMProvider := none, MaxParallel := 10, DefaultTimeout := 120 }

theorem runAgent_error_eq (w : OrchestratorWorkerState) (req : RunAgentReq) (o : Oracle)
    (e : String) (h : (runAgent w req o).1 = .error e) :
    runAgent w req o = (.error e, w, o) := by
  unfold runAgent at h ⊢
  by_cases hv : req.AgentID = "" ∨ req.Input = ""
  · rw [if_pos hv] at h ⊢
    dsimp only at h
    obtain rfl := Except.error.inj h
    rfl
  · rw [if_neg hv] at h ⊢
    cases hlook : alookup w.Agents req.AgentID with
    | none =>
        rw [hlook] at h
        dsimp only at h
        obtain rfl := Except.error.inj h
        rfl
    | some agent =>
        exfalso
        rw [hlook] at h
        dsimp only at h
        repeat' split at h
        all_goals exact Except.noConfusion h

theorem runSteps_of_prefix (wfName : String) :
    ∀ (steps1 : List WorkflowStep) (w : OrchestratorWorkerState)
      (acc : List (String × String)) (last : String) (o : Oracle) (ctx : StepCtx),
      runStepsOk w steps1 acc last o = some ctx →
      ∀ rest, runSteps w wfName (steps1 ++ rest) acc last o
        = runSteps ctx.state wfName rest ctx.acc ctx.last ctx.orc := by
  intro steps1
  induction steps1 with
  | nil =>
      intro w acc last o ctx hpre rest
      obtain rfl := Option.some.inj hpre
      rfl
  | cons step steps1 ih =>
      intro w acc last o ctx hpre rest
      unfold runStepsOk at hpre
      rw [List.cons_append, runSteps]
      rcases hra : runAgent w {
        AgentID := step.AgentID, Input := stepInput step acc last, Timeout := 0 } o with
        ⟨x, w2, o2⟩
      rw [hra] at hpre
      cases x with
      | error e => exact Option.noConfusion hpre
      | ok j => exact ih _ _ _ _ _ hpre rest

/-- C1 (amended): for every workflow, every decomposition of its step list
around a step `step` at an arbitrary position, and every hard-error outcome:
if the steps before `step` all return from `runAgent` without a hard error,
reaching the threaded context `ctx`, and the `runAgent` call of `step` itself
returns the hard error `e` there, then `runWorkflow` stops immediately — it
returns a status-failed payload naming the StepID of `step` together with the
partial per-step output map accumulated so far, with the state and the
oracle exactly those of `ctx`: no ledger entry is written for `step` and no
later step is ever attempted.  An LLM-execution failure recorded as a
status-failed run payload is not a hard error and does not abort this way
(see the counterexample). -/
theorem runWorkflow_stops_on_hard_error (w : OrchestratorWorkerState) (req : RunWorkflowReq)
    (o : Oracle) (wf : Workflow)
    (hval : ¬(req.WorkflowID = "" ∨ req.InitialInput = ""))
    (hwf : alookup w.Workflows req.WorkflowID = some wf)
    (steps1 : List WorkflowStep) (step : WorkflowStep) (steps2 : List WorkflowStep)
    (hsplit : wf.Steps = steps1 ++ step :: steps2)
    (ctx : StepCtx)
    (hpre : runStepsOk w steps1 [("_initial", req.InitialInput)] req.InitialInput o = some ctx)
    (e : String)
    (herr : (runAgent ctx.state {
        AgentID := step.AgentID, Input := stepInput step ctx.acc ctx.last,
        Timeout := 0 } ctx.orc).1 = .error e) :
    runWorkflow w req o = (.ok (J.obj [("status", .str "failed"), ("step", .str step.StepID),
      ("error", .str e), ("results", workflowResultsJ ctx.acc)]), ctx.state, ctx.orc) := by
  unfold runWorkflow
  rw [if_neg hval, hwf]
  dsimp only
  rw [hsplit, runSteps_of_prefix wf.Name steps1 w _ _ o ctx hpre (step :: steps2), runSteps,
    runAgent_error_eq _ _ _ _ herr]

/-- C1 witness: the general abort theorem applied to a concrete three-step
workflow whose middle step names the unregistered agent `B` — the prefix
context after step 1 is computed, step 2 hard-errors there, and the workflow
stops naming `s2` with the output of step 1 in the results map. -/
theorem runWorkflow_stops_on_hard_error_witness :
    ∃ ctx : StepCtx,
      runStepsOk wfAbortState [⟨"s1", "A", false, []⟩]
          [("_initial", "go")] "go" plainOracle = some ctx ∧
      (runAgent ctx.state {
          AgentID := "B", Input := stepInput ⟨"s2", "B", false, []⟩ ctx.acc ctx.last,
          Timeout := 0 } ctx.orc).1
        = .error "agent not found: B" ∧
      runWorkflow wfAbortState { WorkflowID := "W3", InitialInput := "go", Timeout := 0 } plainOracle
        = (.ok (J.obj [("status", .str "failed"), ("step", .str "s2"),
            ("error", .str "agent not found: B"), ("results", workflowResultsJ ctx.acc)]),
          ctx.state, ctx.orc) := by
  refine ⟨_, rfl, ?_, ?_⟩
  · with_unfolding_all rfl
  · exact runWorkflow_stops_on_hard_error wfAbortState
      { WorkflowID := "W3", InitialInput := "go", Timeout := 0 } plainOracle wfThreeSteps
      (by simp) rfl [⟨"s1", "A", false, []⟩] ⟨"s2", "B", false, []⟩ [⟨"s3", "C", false, []⟩]
      rfl _ rfl "agent not found: B" (by with_unfolding_all rfl)

/-- Two-step workflow, both agents registered. -/
def wfTwoSteps : Workflow :=
  { ID := "W2", Name := "wf2", CreatedAt := 0,
    Steps := [{ StepID := "s1", AgentID := "A", Parallel := false, Inputs := [] },
              { StepID := "s2", AgentID := "C", Parallel := false, Inputs := [] }] }

/-- State whose LLM abstraction fails every call. -/
def llmFailState : OrchestratorWorkerState :=
  { Agents := [("A", agentAlice), ("C", agentCarol)], Runs := [], Workflows := [("W2", wfTwoSteps)],
    LLMProvider := some (fun _ _ _ _ _ => .error "llm down"), MaxParallel := 10, DefaultTimeout := 120 }

/-- C1 counterexample: on a two-step workflow whose LLM abstraction fails
every call, step 1's run is recorded status `failed`, yet runWorkflow does
not stop at step 1: it records an empty output for it, attempts step 2, and
the returned failure names step s2 — not s1 as the claim requires for an
LLM-execution failure at step 1. -/
theorem runWorkflow_llm_failure_counterexample :
    ∃ j w2 o2,
      runWorkflow llmFailState { WorkflowID := "W2", InitialInput := "go", Timeout := 0 } plainOracle
        = (.ok j, w2, o2) ∧
      w2.Runs.map (fun pr => (pr.2.GenomeID, pr.2.Status)) = [("A", "failed")] ∧
      j.getStr "status" = "failed" ∧ j.getStr "step" = "s2" ∧ ("s2" : String) ≠ "s1" := by
  refine ⟨_, _, _, by with_unfolding_all rfl, by with_unfolding_all rfl,
    by with_unfolding_all rfl, by with_unfolding_all rfl, by decide⟩

theorem runAgent_args_missing (w : OrchestratorWorkerState) (req : RunAgentReq) (o : Oracle)
    (h : req.AgentID = "" ∨ req.Input = "") :
    runAgent w req o = (.error "agent_id and input required", w, o) := by
  unfold runAgent
  rw [if_pos h]

theorem runSlots_spec (ids : List String) : ∀ (w : OrchestratorWorkerState) (inp : String)
    (timeout : Nat) (o : Oracle), inp ≠ "" →
    List.Forall₂ (fun id r => r.AgentID = id ∧
      (alookup w.Agents id = none → r.Status = "failed") ∧
      (w.LLMProvider = none → id ≠ "" → (alookup w.Agents id).isSome → r.Status = "completed"))
      ids (runSlots w ids inp timeout o).1 := by
  induction ids with
  | nil => intro w inp timeout o hin; exact List.Forall₂.nil
  | cons id rest ih =>
      intro w inp timeout o hin
      rw [runSlots]
      dsimp only
      refine List.Forall₂.cons ⟨?_, ?_, ?_⟩ ?_
      · rcases hr : (runAgent w { AgentID := id, Input := inp, Timeout := timeout } o).1 with e | j <;>
          simp [hr]
      · intro hnone
        by_cases hid : id = ""
        · rw [runAgent_args_missing w _ o (Or.inl hid)]
        · rw [runAgent_not_found w _ o hid hin hnone]
      · intro hllm hid hs
        obtain ⟨agent, hag⟩ := Option.isSome_iff_exists.1 hs
        rw [runAgent_no_llm w _ o agent hid hin hag hllm]
        simp [J.getStr, alookup]
      · have hfr := runAgent_frame w { AgentID := id, Input := inp, Timeout := timeout } o
        have ht := ih (runAgent w { AgentID := id, Input := inp, Timeout := timeout } o).2.1
          inp timeout (runAgent w { AgentID := id, Input := inp, Timeout := timeout } o).2.2 hin
        rw [hfr.1, hfr.2.1] at ht
        exact ht
/-- C5: for every non-empty ID list within the parallelism cap and
non-empty input, runParallel returns exactly one result slot per requested
ID, aligned with the request order (`List.Forall₂` against the request
list); a slot whose ID is unregistered is marked failed without disturbing
the other slots, and with no LLM configured every registered non-empty ID
completes. -/
theorem runParallel_ordered_slots (w : OrchestratorWorkerState) (req : RunParallelReq) (o : Oracle)
    (hne : req.AgentIDs.length ≠ 0) (hcap : req.AgentIDs.length ≤ w.MaxParallel)
    (hin : req.Input ≠ "") :
    ∃ rs w2 o2,
      runParallel w req o = (.ok (J.obj [("results", .arr (rs.map PResult.toJ)),
        ("count", .num rs.length)]), w2, o2) ∧
      List.Forall₂ (fun id r => r.AgentID = id ∧
        (alookup w.Agents id = none → r.Status = "failed") ∧
        (w.LLMProvider = none → id ≠ "" → (alookup w.Agents id).isSome → r.Status = "completed"))
        req.AgentIDs rs := by
  unfold runParallel
  rw [if_neg (by simp [hne, hin]), if_neg (by omega)]
  exact ⟨_, _, _, rfl, runSlots_spec req.AgentIDs w req.Input _ o hin⟩

/-- State with agents `A` and `C` registered and no LLM provider. -/
def twoAgentState : OrchestratorWorkerState :=
  { Agents := [("A", agentAlice), ("C", agentCarol)], Runs := [], Workflows := [],
    LLMProvider := none, MaxParallel := 10, DefaultTimeout := 120 }

/-- C5 witness: the spec example `[A, B, C]` with `B` unknown — three slots
in request order, `B` failed, `A` and `C` completed. -/
theorem runParallel_ordered_slots_witness :
    ((["A", "B", "C"] : List String).length ≠ 0 ∧ (["A", "B", "C"] : List String).length ≤ 10 ∧
      ("go" : String) ≠ "") ∧
    ∃ rs w2 o2,
      runParallel twoAgentState { AgentIDs := ["A", "B", "C"], Input := "go", Timeout := 0 }
          plainOracle
        = (.ok (J.obj [("results", .arr (rs.map PResult.toJ)), ("count", .num rs.length)]), w2, o2) ∧
      List.Forall₂ (fun id r => r.AgentID = id ∧
        (alookup twoAgentState.Agents id = none → r.Status = "failed") ∧
        (twoAgentState.LLMProvider = none → id ≠ "" →
          (alookup twoAgentState.Agents id).isSome → r.Status = "completed"))
        ["A", "B", "C"] rs :=
  ⟨⟨by decide, by decide, by decide⟩,
    runParallel_ordered_slots twoAgentState
      { AgentIDs := ["A", "B", "C"], Input := "go", Timeout := 0 } plainOracle
      (by decide) (by decide) (by decide)⟩

/-- C6: a runParallel call whose agent-ID count exceeds the configured max
parallelism returns a hard error synchronously with the state — in
particular the run ledger — completely unchanged. -/
theorem runParallel_over_cap (w : OrchestratorWorkerState) (req : RunParallelReq) (o : Oracle)
    (hover : w.MaxParallel < req.AgentIDs.length) :
    ∃ e, runParallel w req o = (.error e, w, o) := by
  unfold runParallel
  by_cases h0 : req.AgentIDs.length = 0 ∨ req.Input = ""
  · exact ⟨_, by rw [if_pos h0]⟩
  · exact ⟨_, by rw [if_neg h0, if_pos hover]⟩

/-- C6 witness: three IDs against a cap of two. -/
theorem runParallel_over_cap_witness :
    ({ twoAgentState with MaxParallel := 2 }).MaxParallel <
      (({ AgentIDs := ["A", "B", "C"], Input := "go", Timeout := 0 } : RunParallelReq)).AgentIDs.length ∧
    ∃ e, runParallel { twoAgentState with MaxParallel := 2 }
        { AgentIDs := ["A", "B", "C"], Input := "go", Timeout := 0 } plainOracle
      = (.error e, { twoAgentState with MaxParallel := 2 }, plainOracle) :=
  ⟨by decide, runParallel_over_cap _ _ _ (by decide)⟩

/-- C4 (amended): crossover sets the child temperature to the average of
the parent temperatures — exactly `(p1 + p2) / 2` in the rational model of
the arithmetic.  Under binary64 however the average of the doubles nearest
0.4 and 0.8 is NOT exactly 0.6: their sum falls exactly halfway between two
doubles and the tie rounds to even, up to 1.2000000000000002, whose exact
halving gives 5404319552844596/2^53 = 0.6000000000000001 — one unit in the
last place above the double nearest 3/5. -/
theorem crossover_temperature_float64 :
    (∀ p1 p2 o, (crossover p1 p2 o).1.Temperature
        = (p1.Temperature + p2.Temperature) / 2) ∧
    crossoverTemperatureF64 (float64Round (2/5)) (float64Round (4/5))
        = 5404319552844596 / 9007199254740992 ∧
    float64Round (3/5) = 5404319552844595 / 9007199254740992 ∧
    crossoverTemperatureF64 (float64Round (2/5)) (float64Round (4/5))
        = float64Round (3/5) + pow2 (-53) :=
  ⟨fun p1 p2 o => rfl, by with_unfolding_all rfl, by with_unfolding_all rfl,
    by with_unfolding_all rfl⟩

/-- Genome whose pair of tools exercise the removal branch of `mutate`. -/
def genomeTooled : AgentGenome :=
  { ID := "T", Name := "T", Model := "m", Provider := "",
    SystemPrompt := "", Tools := ["a", "b"], Temperature := 0, MaxTokens := 0, Metadata := [],
    CreatedAt := 0, Fitness := 1/2, Generation := 0, ParentIDs := [] }

/-- Oracle tape driving the third mutation branch into tool removal at
index 0 (branch coin at position 2, removal coin at position 3, index draw
at position 4). -/
def toolAliasOracle : Oracle :=
  { floats := fun n => if n = 2 then 0 else if n = 3 then 0 else 9/10,
    ints := fun _ => 0, times := fun n => n, pos := 0 }

/-- C3 evidence: driving the tool-removal branch of `mutate` at index 0 on
a genome with tools `[a, b]` returns the value `[b]`, while the shared
backing array of the registered genome's slice afterwards reads `[b, b]` —
an in-place change to the registered genome's tool contents, contradicting
the claim that evolve and mutate never mutate a registered genome in place. -/
theorem mutate_tool_removal_aliasing :
    (mutate genomeTooled (1/10) toolAliasOracle).map (fun p => p.1.Tools) = some ["b"]
    ∧ goBackingAfterToolRemove ["a", "b"] 0 = ["b", "b"]
    ∧ (["b", "b"] : List String) ≠ ["a", "b"] :=
  ⟨by with_unfolding_all decide, by decide, by decide⟩

/-- Modelled from the spec: `fitness = explicit value if nonzero, else 1.0 if
correctness true, else 0.5`. -/
def specFitness (req : EvaluateReq) : ℚ :=
  if req.Fitness ≠ 0 then req.Fitness else if req.Correctness then 1 else 1/2

/-- C8: evaluate resolves the run — an unknown run ID is a hard error with
no state change — and otherwise computes fitness per `specFitness` (the
explicit value if nonzero, else 1 if correctness holds, else 1/2), writes
it onto the run, and onto the run's source genome exactly when that genome
is still registered. -/
theorem evaluate_spec (w : OrchestratorWorkerState) (req : EvaluateReq) (o : Oracle) :
    (alookup w.Runs req.RunID = none →
      evaluate w req o = (.error ("run not found: " ++ req.RunID), w, o)) ∧
    (∀ run, alookup w.Runs req.RunID = some run →
      ∃ w2, evaluate w req o = (.ok (J.obj [("run_id", .str req.RunID),
          ("fitness", .num (specFitness req)), ("updated", .bool true)]), w2, o) ∧
        alookup w2.Runs req.RunID = some { run with Fitness := specFitness req } ∧
        (∀ agent, alookup w.Agents run.GenomeID = some agent →
          alookup w2.Agents run.GenomeID = some { agent with Fitness := specFitness req }) ∧
        (alookup w.Agents run.GenomeID = none → w2.Agents = w.Agents) ∧
        w2.Workflows = w.Workflows) := by
  have hfit : (if req.Fitness = 0 ∧ req.Correctness then (1 : ℚ)
      else if req.Fitness = 0 then 1/2 else req.Fitness) = specFitness req := by
    unfold specFitness
    by_cases h1 : req.Fitness = 0 <;> by_cases h2 : req.Correctness = true <;>
      simp [h1, h2]
  constructor
  · intro h
    unfold evaluate
    rw [h]
  · intro run h
    unfold evaluate
    rw [h]
    dsimp only
    simp only [hfit]
    cases hag : alookup w.Agents run.GenomeID with
    | none =>
        refine ⟨_, rfl, ?_, ?_, fun _ => rfl, rfl⟩
        · exact alookup_ainsert_self ..
        · intro agent hag2
          cases hag2
    | some agent0 =>
        refine ⟨_, rfl, ?_, ?_, ?_, rfl⟩
        · exact alookup_ainsert_self ..
        · intro agent hag2
          obtain rfl := Option.some.inj hag2
          exact alookup_ainsert_self ..
        · intro hnone
          cases hnone
/-- A completed run of genome `P`, not yet evaluated. -/
def evalRun : AgentRun :=
  { RunID := "r1", GenomeID := "P", Input := "x", Output := "y", Status := "completed",
    Fitness := 0, StartedAt := 0, CompletedAt := none, Error := "", Metadata := [] }

/-- State holding genome `P` and the run `r1`. -/
def evalState : OrchestratorWorkerState :=
  { Agents := [("P", genomeP)], Runs := [("r1", evalRun)], Workflows := [],
    LLMProvider := none, MaxParallel := 10, DefaultTimeout := 120 }

/-- Evaluation request with no explicit fitness and correctness true. -/
def evalReq : EvaluateReq :=
  { RunID := "r1", Fitness := 0, Feedback := "", Correctness := true }

/-- C8 witness: run `r1` of genome `P` evaluated with correctness true. -/
theorem evaluate_spec_witness :
    ∃ w2, evaluate evalState evalReq plainOracle = (.ok (J.obj [("run_id", .str evalReq.RunID),
        ("fitness", .num (specFitness evalReq)), ("updated", .bool true)]), w2, plainOracle) ∧
      alookup w2.Runs evalReq.RunID = some { evalRun with Fitness := specFitness evalReq } ∧
      (∀ agent, alookup evalState.Agents evalRun.GenomeID = some agent →
        alookup w2.Agents evalRun.GenomeID = some { agent with Fitness := specFitness evalReq }) ∧
      (alookup evalState.Agents evalRun.GenomeID = none → w2.Agents = evalState.Agents) ∧
      w2.Workflows = evalState.Workflows :=
  (evaluate_spec evalState evalReq plainOracle).2 evalRun rfl

/-- C10: Execute with a tool name outside the dispatch table returns the
default branch value: nil payload together with nil error, with the state
untouched. -/
theorem Execute_unknown_name_nil (w : OrchestratorWorkerState) (name : String)
    (input : Option RawInput) (o : Oracle) (h : name ∉ recognizedOrchestratorTools) :
    Execute w name input o = some (.nilNil, w, o) := by
  simp only [recognizedOrchestratorTools, List.mem_cons, List.not_mem_nil, or_false, not_or] at h
  obtain ⟨h1, h2, h3, h4, h5, h6, h7, h8, h9, h10, h11, h12, h13, h14, h15, h16, h17, h18, h19,
    h20, h21, h22, h23, h24⟩ := h
  unfold Execute
  simp only [h1, h2, h3, h4, h5, h6, h7, h8, h9, h10, h11, h12, h13, h14, h15, h16, h17, h18,
    h19, h20, h21, h22, h23, h24, or_self, if_false]

/-- C10 witness: the unrecognized name `bogus`. -/
theorem Execute_unknown_name_nil_witness :
    ("bogus" : String) ∉ recognizedOrchestratorTools ∧
    Execute seedState "bogus" none plainOracle = some (.nilNil, seedState, plainOracle) :=
  ⟨by decide, Execute_unknown_name_nil seedState "bogus" none plainOracle (by decide)⟩

/-- C4 counterexample: at parent temperatures 0.4 and 0.8 (that is, the
binary64 values nearest those decimals) the float64 average the program
computes is neither exactly 3/5 nor even the binary64 value nearest 3/5 —
refuting the claim that the child temperature is exactly 0.6 there. -/
theorem crossover_temperature_float64_counterexample :
    crossoverTemperatureF64 (float64Round (2/5)) (float64Round (4/5)) ≠ 3/5 ∧
    crossoverTemperatureF64 (float64Round (2/5)) (float64Round (4/5)) ≠ float64Round (3/5) := by
  have hA : crossoverTemperatureF64 (float64Round (2/5)) (float64Round (4/5))
      = 5404319552844596 / 9007199254740992 := by with_unfolding_all rfl
  have hB : float64Round (3/5) = 5404319552844595 / 9007199254740992 := by
    with_unfolding_all rfl
  rw [hA, hB]
  constructor <;> norm_num

end MyMCP
